import Mathlib

/-!
Verification development for the receipt field-normalization and derivation
engine of the Azure-Reciept-Analyzer repository
(src/azure_receipt_analyzer.py, class AzureReceiptAnalyzer).

The Python source is shallowly embedded below.  Python floats are modelled as
exact rationals (every Python float is a finite decimal, and all values the
pipeline ever renders are finite decimals); str(float) is modelled as plain
shortest decimal rendering (scientific notation for very small or very large
magnitudes is outside the model); round(x, 2) is modelled as exact
round-half-to-even at two decimal places.  Attribute access on the opaque SDK
field objects is modelled through Option-valued components, and the
possibility that touching a field object raises an exception is modelled by a
distinguished malformed constructor whose processing yields an error.
-/

set_option maxRecDepth 4000

namespace ReceiptAnalyzer

attribute [local semireducible] Rat.mul Rat.add Rat.sub Rat.inv

/-! ## Decimal digit utilities -/

/-- Character for one decimal digit (inputs are always below ten). -/
def digChar : Nat → Char
  | 0 => '0' | 1 => '1' | 2 => '2' | 3 => '3' | 4 => '4'
  | 5 => '5' | 6 => '6' | 7 => '7' | 8 => '8' | _ => '9'

/-- Numeric value of one decimal digit character. -/
def charToDigit (c : Char) : Nat := c.toNat - 48

/-- The ten decimal digit characters. -/
def digitChars : List Char := ['0', '1', '2', '3', '4', '5', '6', '7', '8', '9']

/-- Little-endian digits of a natural number, with explicit fuel so that the
kernel can evaluate the definition. -/
def natDigsLEAux : Nat → Nat → List Nat
  | 0, _ => []
  | _, 0 => []
  | f + 1, n + 1 => (n + 1) % 10 :: natDigsLEAux f ((n + 1) / 10)

/-- Little-endian digits of a natural number (empty for zero). -/
def natDigsLE (n : Nat) : List Nat := natDigsLEAux n n

/-- Big-endian decimal character rendering of a natural number. -/
def natDigitsBE (n : Nat) : List Char :=
  if n = 0 then ['0'] else ((natDigsLE n).map digChar).reverse

/-- Value of a little-endian digit list. -/
def valLE : List Nat → Nat
  | [] => 0
  | d :: t => d + 10 * valLE t

/-- Value of a big-endian digit list. -/
def natValD (ds : List Nat) : Nat := ds.foldl (fun a d => a * 10 + d) 0

/-- Value of a big-endian list of digit characters. -/
def natValChars (l : List Char) : Nat := natValD (l.map charToDigit)

/-- Left-pad a digit-character list with zeros up to width e. -/
def padLeftZeros (e : Nat) (l : List Char) : List Char :=
  List.replicate (e - l.length) '0' ++ l

/-! ## Parsing of numeric strings (model of Python float(...) on the cleaned
character sets that can actually reach it in this program: decimal digits,
at most one dot, an optional leading sign) -/

/-- Split a character list at its unique dot; none if the first dot is
followed by another dot.  Returns none when there is no dot at all. -/
def splitDot : List Char → Option (List Char × List Char)
  | [] => none
  | c :: t =>
    if c = '.' then (if t.contains '.' then none else some ([], t))
    else (splitDot t).map (fun p => (c :: p.1, p.2))

/-- Decidable test that every character is a decimal digit. -/
def allDigits (l : List Char) : Bool := l.all Char.isDigit

/-- Parse an unsigned decimal character list into (mantissa, number of
fractional digits); none models a ValueError from float(...). -/
def parsePosDec (l : List Char) : Option (Nat × Nat) :=
  if l.contains '.' then
    match splitDot l with
    | none => none
    | some (a, b) =>
      if allDigits a && allDigits b && !(a ++ b).isEmpty then
        some (natValChars a * 10 ^ b.length + natValChars b, b.length)
      else none
  else
    if allDigits l && !l.isEmpty then some (natValChars l, 0) else none

/-- Parse a decimal character list with an optional leading sign. -/
def parseSignedDec : List Char → Option (Int × Nat)
  | [] => none
  | c :: t =>
    if c = '-' then (parsePosDec t).map (fun p => (-(p.1 : Int), p.2))
    else if c = '+' then (parsePosDec t).map (fun p => ((p.1 : Int), p.2))
    else (parsePosDec (c :: t)).map (fun p => ((p.1 : Int), p.2))

/-- Rational value of a parsed decimal pair. -/
def decVal (m : Int) (e : Nat) : ℚ := (m : ℚ) / 10 ^ e

/-- Model of float(s) on the strings this program feeds back to it. -/
def parseQFloat (s : String) : Option ℚ :=
  (parseSignedDec s.toList).map (fun p => decVal p.1 p.2)

/-! ## Rendering of floats (model of str(float) and str(int(float))) -/

/-- Remove trailing decimal zeros from a (mantissa, exponent) pair, the way
the binary-to-shortest-decimal float printer normalizes a stored value. -/
def reduceDec : Int → Nat → Int × Nat
  | m, 0 => (m, 0)
  | m, e + 1 => if m % 10 = 0 then reduceDec (m / 10) e else (m, e + 1)

/-- Decimal rendering with a dot, for a nonnegative mantissa and a positive
number of fractional digits. -/
def decRenderN (m e : Nat) : List Char :=
  natDigitsBE (m / 10 ^ e) ++ '.' :: padLeftZeros e (natDigitsBE (m % 10 ^ e))

/-- Decimal string of an integer (model of str(int)). -/
def intStr (n : Int) : String :=
  (if n < 0 then "-" else "") ++ String.mk (natDigitsBE n.natAbs)

/-- Strip trailing zero digits from a big-endian digit list (the shortest
scientific mantissa drops them). -/
def dropTrailZeros (l : List Char) : List Char :=
  (l.reverse.dropWhile (fun c => c == '0')).reverse

/-- Scientific mantissa of a big-endian digit list: the leading digit, then
a dot and the remaining digits when there are any. -/
def sciMant : List Char → List Char
  | [] => ['0']
  | d :: rest => d :: (if rest.isEmpty then [] else '.' :: rest)

/-- Exponent suffix of a scientific rendering: the letter e, a sign, and
the exponent zero-padded to at least two digits, as the float printer
writes it. -/
def sciExp (sgn : Char) (k : Nat) : List Char :=
  'e' :: sgn :: padLeftZeros 2 (natDigitsBE k)

/-- str(float) rendering of the fractional value a / 10 ^ e (a not a
multiple of ten, e positive): positional digits while the decimal exponent
lies in the repr range, scientific notation below one ten-thousandth or
from ten to the sixteenth on. -/
def fracRender (a e : Nat) : String :=
  if (natDigitsBE a).length + 4 ≤ e then
    String.mk (sciMant (natDigitsBE a)
      ++ sciExp '-' (e + 1 - (natDigitsBE a).length))
  else if e + 17 ≤ (natDigitsBE a).length then
    String.mk (sciMant (natDigitsBE a)
      ++ sciExp '+' ((natDigitsBE a).length - 1 - e))
  else String.mk (decRenderN a e)

/-- str(float) rendering of the whole value a: digits with a trailing .0
below ten to the sixteenth, scientific notation from there on. -/
def wholeStrFloat (a : Nat) : String :=
  if 17 ≤ (natDigitsBE a).length then
    String.mk (sciMant (dropTrailZeros (natDigitsBE a))
      ++ sciExp '+' ((natDigitsBE a).length - 1))
  else String.mk (natDigitsBE a) ++ ".0"

/-- Model of the quantity formatting in _clean_quantity: str(int(qty)) when
the value is whole (integer rendering, never scientific), str(qty)
otherwise, including the switch to scientific notation outside the repr
range. -/
def fmtCore (m : Int) (e : Nat) : String :=
  if (reduceDec m e).2 = 0 then intStr (reduceDec m e).1
  else (if (reduceDec m e).1 < 0 then "-" else "")
    ++ fracRender (reduceDec m e).1.natAbs (reduceDec m e).2

/-- Model of str(float) applied to the finite decimal m / 10 ^ e: whole
values render with a trailing .0 (scientific from ten to the sixteenth),
fractional values positionally or, outside the repr range,
scientifically. -/
def pyStrDec (m : Int) (e : Nat) : String :=
  if (reduceDec m e).2 = 0 then
    (if (reduceDec m e).1 < 0 then "-" else "")
      ++ wholeStrFloat (reduceDec m e).1.natAbs
  else (if (reduceDec m e).1 < 0 then "-" else "")
    ++ fracRender (reduceDec m e).1.natAbs (reduceDec m e).2

/-- Count and remove the factors of a prime p from n, with fuel. -/
def stripP (p : Nat) : Nat → Nat → Nat × Nat
  | 0, n => (0, n)
  | f + 1, n =>
    if 2 ≤ p && n % p == 0 && n != 0 then
      let r := stripP p f (n / p)
      (r.1 + 1, r.2)
    else (0, n)

/-- Express a rational as a decimal pair (mantissa, fractional digits) when
its reduced denominator divides a power of ten. -/
def qToPair (q : ℚ) : Option (Int × Nat) :=
  let d := q.den
  let s2 := stripP 2 d d
  let s5 := stripP 5 s2.2 s2.2
  if s5.2 = 1 then
    let e := max s2.1 s5.1
    some (q.num * ((10 ^ e) / d : Nat), e)
  else none

/-- Model of str(float) on a rational float value.  Every value this program
renders is a finite decimal, so the fallback branch is unreachable there. -/
def pyStrFloat (q : ℚ) : String :=
  match qToPair q with
  | some p => pyStrDec p.1 p.2
  | none => "inf"

/-- Model of round(x, 2): round half to even at two decimal places, exactly
on rationals. -/
def roundHalfEvenZ (q : ℚ) : Int :=
  let f := ⌊q⌋
  let r := q - f
  if r < 1 / 2 then f
  else if 1 / 2 < r then f + 1
  else if f % 2 = 0 then f else f + 1

/-- Two-decimal rounding used throughout the item computations. -/
def round2 (q : ℚ) : ℚ := (roundHalfEvenZ (q * 100) : ℚ) / 100

/-! ## Python scalar values -/

/-- Scalar values flowing between the extractor and the normalizers:
None, str, float (an exact finite decimal, held as a rational) and int. -/
inductive PyVal where
  | vNone
  | vStr (s : String)
  | vFloat (q : ℚ)
  | vInt (n : Int)
  deriving DecidableEq

/-- Python truthiness on the scalar values that occur here. -/
def pyTruthy : PyVal → Bool
  | .vNone => false
  | .vStr s => s ≠ ""
  | .vFloat q => q ≠ 0
  | .vInt n => n ≠ 0

/-- Model of str(value) on our scalar values. -/
def pyStr : PyVal → String
  | .vNone => "None"
  | .vStr s => s
  | .vFloat q => pyStrFloat q
  | .vInt n => intStr n

/-- Model of the idiom str(value or ...) with an empty default. -/
def pyStrOr (v : PyVal) : String := if pyTruthy v then pyStr v else ""

/-! ## Value normalizers (_clean_currency, _clean_quantity) -/

/-- Whitespace characters matched by the regex class backslash-s. -/
def isPySpaceChar (c : Char) : Bool :=
  c == ' ' || c == '\t' || c == '\n' || c == '\r' || c == '\x0b' || c == '\x0c'

/-- ASCII letters A-Z and a-z. -/
def isAsciiAlpha (c : Char) : Bool :=
  (65 ≤ c.toNat && c.toNat ≤ 90) || (97 ≤ c.toNat && c.toNat ≤ 122)

/-- Characters removed by the substitution in _clean_currency: dollar sign,
comma, whitespace and ASCII letters. -/
def currencyStrip (c : Char) : Bool :=
  c == '$' || c == ',' || isPySpaceChar c || isAsciiAlpha c

/-- Embedding of AzureReceiptAnalyzer._clean_currency (source lines
609-635): None or empty gives none, numeric types convert directly, text is
stripped of currency symbols, separators, whitespace and letters, then must
carry at most one minus sign, only at the front, and parse as a float. -/
def cleanCurrency : PyVal → Option ℚ
  | .vNone => none
  | .vInt n => some (n : ℚ)
  | .vFloat q => some q
  | .vStr s =>
    if s = "" then none
    else
      let clean := s.toList.filter (fun c => !currencyStrip c)
      if clean.isEmpty then none
      else if 1 < clean.count '-' then none
      else if clean.contains '-' && clean.head? ≠ some '-' then none
      else (parseSignedDec clean).map (fun p => decVal p.1 p.2)

/-- Embedding of AzureReceiptAnalyzer._clean_quantity (source lines
269-289): None or empty gives the default "1"; numeric input is formatted as
an integer string when whole, otherwise with its decimal digits; text keeps
only digits and dots, an empty residue means the quantity one, and a parse
failure falls back to "1". -/
def cleanQuantity : PyVal → String
  | .vNone => "1"
  | .vInt n => fmtCore n 0
  | .vFloat q =>
    match qToPair q with
    | some p => fmtCore p.1 p.2
    | none => "1"
  | .vStr s =>
    if s = "" then "1"
    else
      let clean := s.toList.filter (fun c => c.isDigit || c == '.')
      if clean.isEmpty then fmtCore 1 0
      else
        match parsePosDec clean with
        | some p => fmtCore (p.1 : Int) p.2
        | none => "1"

/-! ## Substring search (model of the Python in operator on strings) -/

/-- Boolean sublist containment for character lists. -/
def hasSubList (pat : List Char) : List Char → Bool
  | [] => pat.isEmpty
  | c :: t => pat.isPrefixOf (c :: t) || hasSubList pat t

/-- Model of (pat in s) for Python strings. -/
def strContains (s pat : String) : Bool := hasSubList pat.toList s.toList

/-- ASCII uppercasing on the underlying character list (model of the Python
str.upper method on the ASCII strings this program handles). -/
def strUpper (s : String) : String := String.mk (s.toList.map Char.toUpper)

/-- ASCII lowercasing on the underlying character list. -/
def strLower (s : String) : String := String.mk (s.toList.map Char.toLower)

/-- Model of str.replace with the percent sign and an empty replacement. -/
def stripPercentStr (s : String) : String :=
  String.mk (s.toList.filter (fun c => !(c == '%')))

/-- Split a character list on a separator character (model of str.split on
one character). -/
def splitOnChar (sep : Char) : List Char → List (List Char)
  | [] => [[]]
  | x :: t =>
    match splitOnChar sep t with
    | [] => [[]]
    | h :: r => if x = sep then [] :: h :: r else (x :: h) :: r

/-- Join words with single spaces (model of the str.join call in the
categorizer). -/
def joinSpace : List String → String
  | [] => ""
  | [w] => w
  | w :: t => w ++ " " ++ joinSpace t

/-! ## Categorizer (_categorize_item, source lines 637-663) -/

/-- Ordered keyword table from the source, verbatim. -/
def categoryMappings : List (String × List String) :=
  [("groceries",
    ["milk", "bread", "cheese", "yogurt", "fruit", "vegetable", "meat",
     "chicken", "beef", "pork", "fish", "egg", "cereal", "pasta", "rice",
     "flour", "sugar", "coffee", "tea", "juice", "water", "snack", "chip",
     "cookie", "cracker", "nut", "bean", "grain", "produce", "dairy",
     "bakery", "deli", "frozen", "canned", "pantry", "spice", "oil",
     "vinegar", "sauce", "condiment", "paneer", "naan", "tandoori"]),
   ("household",
    ["paper", "toilet", "tissue", "detergent", "soap", "cleaner", "cleaning",
     "laundry", "dish", "towel", "trash", "garbage", "bag", "battery",
     "light bulb", "candle", "filter", "storage", "container", "foil",
     "wrap", "ziploc", "vacuum", "broom", "mop", "sponge", "glove",
     "supply"]),
   ("personal_care",
    ["shampoo", "conditioner", "body wash", "soap", "lotion", "cream",
     "deodorant", "toothpaste", "toothbrush", "floss", "mouthwash", "razor",
     "shaving", "makeup", "cosmetic", "cotton", "sanitizer", "medicine",
     "vitamin", "supplement", "bandage", "sunscreen", "insect repellent",
     "nail", "hair"]),
   ("dining",
    ["restaurant", "cafe", "coffee shop", "bar", "pub", "fast food",
     "takeout", "delivery", "pizza", "burger", "sandwich", "salad",
     "breakfast", "lunch", "dinner", "meal", "drink", "beverage", "alcohol",
     "beer", "wine", "liquor", "cocktail", "appetizer", "dessert", "tip",
     "service charge"]),
   ("transportation",
    ["gas", "fuel", "parking", "toll", "fare", "ticket", "uber", "lyft",
     "taxi", "cab", "bus", "train", "subway", "rental", "car wash",
     "oil change", "maintenance", "repair", "tire", "battery", "insurance",
     "registration", "license", "dmv"]),
   ("entertainment",
    ["movie", "theater", "concert", "show", "event", "ticket", "game",
     "book", "magazine", "music", "video", "streaming", "subscription",
     "toy", "game", "hobby", "craft", "sport", "fitness", "gym", "class",
     "lesson", "tour", "park", "museum", "attraction"])]

/-- First category in the ordered table with a keyword occurring as a
substring of the lowered description. -/
def findCat : List (String × List String) → String → Option String
  | [], _ => none
  | (c, ks) :: rest, d =>
    if ks.any (fun k => strContains d k) then some c else findCat rest d

/-- Capitalize one word the way Python str.capitalize does. -/
def capitalizeWord (w : String) : String :=
  match w.toList with
  | [] => ""
  | c :: t => String.mk (c.toUpper :: t.map Char.toLower)

/-- Display form of a category key: split on underscores, capitalize. -/
def displayCat (c : String) : String :=
  joinSpace ((splitOnChar '_' c.toList).map (fun w => capitalizeWord (String.mk w)))

/-- Embedding of AzureReceiptAnalyzer._categorize_item: ordered keyword
table lookup, then the reusable-bag special case, then the groceries
default.  Note the special case sits after the table loop in the source. -/
def categorizeItem (description : String) : String :=
  let d := strLower description
  match findCat categoryMappings d with
  | some c => displayCat c
  | none =>
    if strContains d "bag" && strContains d "reusable" then "Household"
    else "Groceries"

/-! ## RawField model and the field extractor (_extract_field_value) -/

/-- Opaque field object from the document-analysis service.  The mk
constructor carries the attributes the source probes (an absent attribute
and an attribute holding None collapse to Option.none, which the extractor
treats identically); value_date is held already string-rendered;
value_currency is collapsed to its numeric amount.  The malformed
constructor models an object on which attribute access raises. -/
inductive RawField where
  | mk (kind : Option String) (content : Option String)
      (value_string : Option String) (value_number : Option ℚ)
      (value_integer : Option Int) (value_date : Option String)
      (value_phone_number : Option String)
      (value_country_region : Option String)
      (value_currency_amount : Option ℚ)
      (value_array : Option (List RawField))
      (value_object : Option (List (String × RawField)))
  | malformed

/-- Embedding of AzureReceiptAnalyzer._extract_field_value (source lines
566-607) as a fallible step: touching a malformed field raises.  Note the
first branch returns the content attribute whenever it is not None, the
empty string included. -/
def extractFieldValueE : RawField → Except Unit PyVal
  | .malformed => .error ()
  | .mk kind content vs vn vi vd vp vcr vca _ _ =>
    .ok <|
      match content with
      | some c => .vStr c
      | none =>
        if kind = some "string" then
          match vs with | some s => .vStr s | none => .vNone
        else if kind = some "number" then
          match vn with | some q => .vFloat q | none => .vNone
        else if kind = some "integer" then
          match vi with | some n => .vInt n | none => .vNone
        else if kind = some "date" then
          match vd with | some d => .vStr d | none => .vNone
        else if kind = some "phoneNumber" then
          match vp with | some p => .vStr p | none => .vNone
        else if kind = some "countryRegion" then
          match vcr with | some r => .vStr r | none => .vNone
        else if kind = some "currency" then
          match vca with | some a => .vFloat a | none => .vNone
        else if kind = some "address" then
          .vNone
        else .vNone

/-- Total extractor for fields already known to be well formed. -/
def extractOk (f : RawField) : PyVal :=
  match extractFieldValueE f with
  | .ok v => v
  | .error _ => .vNone

/-- Value-array attribute of a field (none on malformed). -/
def RawField.arr : RawField → Option (List RawField)
  | .mk _ _ _ _ _ _ _ _ _ va _ => va
  | .malformed => none

/-- Value-object attribute of a field (none on malformed). -/
def RawField.obj : RawField → Option (List (String × RawField))
  | .mk _ _ _ _ _ _ _ _ _ _ vo => vo
  | .malformed => none

/-! ## Receipt record structures (_get_empty_result, source lines 106-141) -/

/-- Merchant block of the receipt record. -/
structure MerchantR where
  name : String
  address : String
  phone : String
  tax_id : String
  gst_hst_number : String
  deriving DecidableEq, Repr

/-- Tax-details block of the transaction record. -/
structure TaxDetailsR where
  total_tax : String
  tax_rates : List ℚ
  tax_amounts : List ℚ
  tax_types : List String
  has_hst : Bool
  deriving DecidableEq, Repr

/-- Transaction block of the receipt record. -/
structure TransactionR where
  date : String
  time : String
  total : String
  subtotal : String
  tax : String
  tax_details : TaxDetailsR
  deriving DecidableEq, Repr

/-- One line item of the receipt record. -/
structure ItemR where
  description : String
  quantity : String
  price : String
  total : String
  tax_status : String
  tax_amount : String
  final_price : String
  discount : String
  savings : String
  deriving DecidableEq, Repr

/-- Payment block of the receipt record. -/
structure PaymentR where
  ptype : String
  amount : String
  card_number : String
  change_due : String
  deriving DecidableEq, Repr

/-- The assembled receipt record.  image_id and receipt_type may hold None,
so they are Option-valued. -/
structure ReceiptR where
  image_id : Option String
  extracted_text : String
  receipt_type : Option String
  merchant : MerchantR
  transaction : TransactionR
  items : List ItemR
  totals : List String
  payment : PaymentR
  deriving DecidableEq, Repr

/-- Embedding of AzureReceiptAnalyzer._get_empty_result. -/
def getEmptyResult (image_id : Option String) : ReceiptR :=
  { image_id := some (match image_id with
      | some s => if s = "" then "unknown" else s
      | none => "unknown")
    extracted_text := ""
    receipt_type := none
    merchant := { name := "", address := "", phone := "", tax_id := "",
                  gst_hst_number := "" }
    transaction :=
      { date := "", time := "", total := "", subtotal := "", tax := ""
        tax_details := { total_tax := "", tax_rates := [], tax_amounts := [],
                         tax_types := [], has_hst := false } }
    items := []
    totals := []
    payment := { ptype := "", amount := "", card_number := "", change_due := "" } }

/-! ## Item builder stages (Items branch of _process_receipt_result,
source lines 462-539) -/

/-- Default item dictionary created for every raw item entry. -/
def itemInit : ItemR :=
  { description := "", quantity := "1", price := "", total := "",
    tax_status := "UNKNOWN", tax_amount := "", final_price := "",
    discount := "", savings := "" }

/-- Look a key up in a value_object and extract its value; extraction of a
malformed nested field raises. -/
def getObjVal (obj : List (String × RawField)) (k : String) :
    Except Unit (Option PyVal) :=
  match obj.lookup k with
  | none => .ok none
  | some f => (extractFieldValueE f).map some

/-- Extraction of description, quantity, unit price and line total (source
lines 477-484). -/
def buildItemBase (obj : List (String × RawField)) : Except Unit ItemR := do
  let d0 := itemInit
  let d1 ← match obj.lookup "Description" with
    | none => Except.ok d0
    | some f => (extractFieldValueE f).map (fun v =>
        { d0 with description := pyStrOr v })
  let d2 ← match obj.lookup "Quantity" with
    | none => Except.ok d1
    | some f => (extractFieldValueE f).map (fun v =>
        { d1 with quantity := cleanQuantity v })
  let d3 ← match obj.lookup "Price" with
    | none => Except.ok d2
    | some f => (extractFieldValueE f).map (fun v =>
        match cleanCurrency v with
        | some p => { d2 with price := pyStrFloat p }
        | none => d2)
  let d4 ← match obj.lookup "TotalPrice" with
    | none => Except.ok d3
    | some f => (extractFieldValueE f).map (fun v =>
        match cleanCurrency v with
        | some t => { d3 with total := pyStrFloat t }
        | none => d3)
  Except.ok d4

/-- Price and total cross-inference (source lines 486-498): when exactly one
of unit price and line total is present the other is derived from the
quantity, with a positivity guard on the division side only; parse failures
are swallowed. -/
def inferPriceTotal (it : ItemR) : ItemR :=
  if it.total ≠ "" ∧ it.price = "" ∧ it.quantity ≠ "" then
    match parseQFloat it.quantity, parseQFloat it.total with
    | some q, some t =>
      if 0 < q then { it with price := pyStrFloat (round2 (t / q)) } else it
    | _, _ => it
  else if it.price ≠ "" ∧ it.total = "" ∧ it.quantity ≠ "" then
    match parseQFloat it.quantity, parseQFloat it.price with
    | some q, some p => { it with total := pyStrFloat (round2 (p * q)) }
    | _, _ => it
  else it

/-- Tax-status assignment (source lines 500-509): document default, then the
zero-rate keyword check, then the exempt keyword check. -/
def taxStatusStage (has_hst : Bool) (it : ItemR) : ItemR :=
  let st0 := if has_hst then "TAXABLE" else "UNKNOWN"
  let u := strUpper it.description
  let st :=
    if strContains u "ZERO" || strContains u "0%" then "ZERO-RATED"
    else if strContains u "EXEMPT" then "EXEMPT"
    else st0
  { it with tax_status := st }

/-- Per-item tax amount and final price (source lines 511-525).  The primary
rate is the head of the raw internal rate list, which may hold a None
placeholder for an unparsable rate; multiplying by that placeholder raises
in the source, which lands in the bare except that clears the tax amount. -/
def taxAmountStage (tax_rates : List (Option ℚ)) (has_hst : Bool)
    (it : ItemR) : ItemR :=
  if it.tax_status = "TAXABLE" ∧ has_hst = true ∧ it.total ≠ "" then
    let primary : Option ℚ :=
      match tax_rates with
      | [] => some (13 / 100)
      | r :: _ => r
    match parseQFloat it.total, primary with
    | some t, some r =>
      let ta := round2 (t * r)
      { it with tax_amount := pyStrFloat ta,
                final_price := pyStrFloat (round2 (t + ta)) }
    | _, _ => { it with tax_amount := "", final_price := it.total }
  else if it.total ≠ "" then { it with final_price := it.total }
  else it

/-- Case-insensitive literal prefix stripping (helper for the regex
models). -/
def ciStrip : List Char → List Char → Option (List Char)
  | [], l => some l
  | _ :: _, [] => none
  | p :: ps, c :: cs => if p.toLower = c.toLower then ciStrip ps cs else none

/-- Attempted match of the savings pattern at the head of the list: the
literal YOU SAVED (case-insensitive), an optional dollar sign, then a
nonempty run of digits and dots (the captured group). -/
def matchSavingsAt (l : List Char) : Option (List Char) :=
  match ciStrip "YOU SAVED ".toList l with
  | none => none
  | some r1 =>
    let r2 := match r1 with | '$' :: t => t | t => t
    let run := r2.takeWhile (fun c => c.isDigit || c == '.')
    if run.isEmpty then none else some run

/-- Leftmost search for the savings pattern (model of re.search at source
line 532). -/
def findSavings : List Char → Option (List Char)
  | [] => none
  | c :: t =>
    match matchSavingsAt (c :: t) with
    | some g => some g
    | none => findSavings t

/-- Discount extraction and the savings regex (source lines 528-535). -/
def discountSavingsStage (obj : List (String × RawField)) (it : ItemR) :
    Except Unit ItemR := do
  let it2 ← match obj.lookup "Discount" with
    | none => Except.ok it
    | some f => (extractFieldValueE f).map (fun v =>
        match cleanCurrency v with
        | some dc => { it with discount := pyStrFloat dc }
        | none => it)
  let it3 := match findSavings it2.description.toList with
    | some g =>
      match cleanCurrency (.vStr (String.mk g)) with
      | some sv => { it2 with savings := pyStrFloat sv }
      | none => it2
    | none => it2
  Except.ok it3

/-- Full build of one item record from its value_object. -/
def buildItem (rates : List (Option ℚ)) (hst : Bool)
    (obj : List (String × RawField)) : Except Unit ItemR := do
  let b ← buildItemBase obj
  discountSavingsStage obj (taxAmountStage rates hst (taxStatusStage hst (inferPriceTotal b)))

/-- Fold over the Items array.  A raised exception aborts the loop and
surfaces the items appended so far (the in-place list mutation of the
source); items with an empty description are dropped. -/
def itemsFold (rates : List (Option ℚ)) (hst : Bool) (acc : List ItemR) :
    List RawField → Except (List ItemR) (List ItemR)
  | [] => .ok acc
  | e :: rest =>
    match e with
    | .malformed => .error acc
    | .mk _ _ _ _ _ _ _ _ _ _ vo =>
      match vo with
      | none => itemsFold rates hst acc rest
      | some obj =>
        match buildItem rates hst obj with
        | .ok d =>
          itemsFold rates hst (acc ++ (if d.description ≠ "" then [d] else [])) rest
        | .error _ => .error acc

/-! ## Tax-details fold (TaxDetails branch, source lines 397-432) -/

/-- Accumulator for the tax-details loop: running recomputed total, raw rate
list (None placeholders kept), amounts, type labels and the regional flag. -/
structure TaxAcc where
  cur : ℚ
  rates : List (Option ℚ)
  amounts : List ℚ
  types : List String
  hst : Bool
  deriving DecidableEq

/-- Rate normalization (source lines 412-418), applied only to truthy
values: a percent-marked string divides by hundred, a bare number above one
is a percentage point, otherwise a fraction; a plain string without a
percent sign is ignored. -/
def parseRateVal : PyVal → Option ℚ
  | .vStr s =>
    if strContains s "%" then
      (parseQFloat (stripPercentStr s)).map (fun x => x / 100)
    else none
  | .vFloat q => some (if 1 < q then q / 100 else q)
  | .vInt n => some (if 1 < n then (n : ℚ) / 100 else (n : ℚ))
  | .vNone => none

/-- Processing of one tax-details entry object. -/
def taxEntryE (acc : TaxAcc) (obj : List (String × RawField)) :
    Except TaxAcc TaxAcc :=
  match getObjVal obj "Description" with
  | .error _ => .error acc
  | .ok dv =>
    match getObjVal obj "Rate" with
    | .error _ => .error acc
    | .ok rv =>
      match getObjVal obj "Amount" with
      | .error _ => .error acc
      | .ok av =>
        let tax_type := match dv with | some v => pyStrOr v | none => ""
        let rate : Option ℚ := match rv with
          | some v => if pyTruthy v then parseRateVal v else none
          | none => none
        let amount : Option ℚ := match av with
          | some v => cleanCurrency v
          | none => none
        match amount with
        | some a =>
          .ok { cur := acc.cur + a, rates := acc.rates ++ [rate],
                amounts := acc.amounts ++ [a], types := acc.types ++ [tax_type],
                hst := acc.hst || ["HST", "GST", "PST"].any
                  (fun t => strContains (strUpper tax_type) t) }
        | none => .ok acc

/-- Fold over the TaxDetails array.  A raised exception surfaces the partial
accumulator (the lists were reset before the loop and mutated in place). -/
def taxFold (acc : TaxAcc) : List RawField → Except TaxAcc TaxAcc
  | [] => .ok acc
  | e :: rest =>
    match e with
    | .malformed => .error acc
    | .mk _ _ _ _ _ _ _ _ _ _ vo =>
      match vo with
      | none => taxFold acc rest
      | some obj =>
        match taxEntryE acc obj with
        | .ok acc2 => taxFold acc2 rest
        | .error a => .error a

/-! ## Payment-details fold (PaymentDetails branch, source lines 435-448) -/

/-- Processing of one payment-details entry object. -/
def payEntryE (pay : PaymentR) (obj : List (String × RawField)) :
    Except PaymentR PaymentR := do
  let p1 ← if pay.ptype = "" then
      match obj.lookup "PaymentType" with
      | none => Except.ok pay
      | some f =>
        match extractFieldValueE f with
        | .ok v => Except.ok { pay with ptype := pyStrOr v }
        | .error _ => Except.error pay
    else Except.ok pay
  let p2 ← if p1.amount = "" then
      match obj.lookup "Amount" with
      | none => Except.ok p1
      | some f =>
        match extractFieldValueE f with
        | .ok v => Except.ok (match cleanCurrency v with
            | some a => { p1 with amount := pyStrFloat a }
            | none => p1)
        | .error _ => Except.error p1
    else Except.ok p1
  if p2.card_number = "" then
    match obj.lookup "CreditCardLast4Digits" with
    | none => Except.ok p2
    | some f =>
      match extractFieldValueE f with
      | .ok v => Except.ok { p2 with card_number := "****" ++ pyStrOr v }
      | .error _ => Except.error p2
  else Except.ok p2

/-- Fold over the PaymentDetails array. -/
def payFold (pay : PaymentR) : List RawField → Except PaymentR PaymentR
  | [] => .ok pay
  | e :: rest =>
    match e with
    | .malformed => .error pay
    | .mk _ _ _ _ _ _ _ _ _ _ vo =>
      match vo with
      | none => payFold pay rest
      | some obj =>
        match payEntryE pay obj with
        | .ok p => payFold p rest
        | .error p => .error p

/-! ## Field-processing state machine (_process_receipt_result main loop) -/

/-- Mutable state of one assembly pass: the receipt record under
construction plus the local tax variables of the source. -/
structure ProcState where
  res : ReceiptR
  total_tax : Option ℚ
  tax_rates : List (Option ℚ)
  tax_amounts : List ℚ
  tax_types : List String
  subtotal : Option ℚ
  total : Option ℚ
  has_hst : Bool
  hst_number_found : Bool
  deriving DecidableEq

/-- Processing of one named field (the body of the loop at source lines
354-539).  An error carries the state at the moment the exception was
raised, since the source mutates the result dictionary in place. -/
def processFieldE (s : ProcState) (name : String) (f : RawField) :
    Except ProcState ProcState :=
  match f with
  | .malformed => .error s
  | g@(.mk _ _ _ _ _ _ _ _ _ va _) =>
    if name = "MerchantName" then
      .ok { s with res := { s.res with
        merchant := { s.res.merchant with name := pyStrOr (extractOk g) } } }
    else if name = "MerchantAddress" then
      .ok { s with res := { s.res with
        merchant := { s.res.merchant with address := pyStrOr (extractOk g) } } }
    else if name = "MerchantPhoneNumber" then
      .ok { s with res := { s.res with
        merchant := { s.res.merchant with phone := pyStrOr (extractOk g) } } }
    else if name = "TransactionDate" then
      .ok { s with res := { s.res with
        transaction := { s.res.transaction with date := pyStrOr (extractOk g) } } }
    else if name = "TransactionTime" then
      .ok { s with res := { s.res with
        transaction := { s.res.transaction with time := pyStrOr (extractOk g) } } }
    else if name = "Total" then
      match cleanCurrency (extractOk g) with
      | some t =>
        .ok { s with total := some t, res := { s.res with
          transaction := { s.res.transaction with total := pyStrFloat t } } }
      | none => .ok s
    else if name = "Subtotal" then
      match cleanCurrency (extractOk g) with
      | some t =>
        .ok { s with subtotal := some t, res := { s.res with
          transaction := { s.res.transaction with subtotal := pyStrFloat t } } }
      | none => .ok s
    else if name = "TotalTax" then
      match cleanCurrency (extractOk g) with
      | some t =>
        if s.hst_number_found ∧ s.tax_amounts = [] then
          .ok { s with
                total_tax := some t, tax_amounts := [t],
                tax_types := s.tax_types ++ ["HST/GST"] }
        else .ok { s with total_tax := some t }
      | none => .ok s
    else if name = "TaxDetails" then
      match va with
      | some [] => .ok s
      | some arr =>
          match taxFold { cur := 0, rates := [], amounts := [], types := [],
                          hst := s.has_hst } arr with
          | .ok a =>
            .ok { s with
                  total_tax := some a.cur, tax_rates := a.rates,
                  tax_amounts := a.amounts, tax_types := a.types,
                  has_hst := a.hst }
          | .error a =>
            .error { s with
                     tax_rates := a.rates, tax_amounts := a.amounts,
                     tax_types := a.types, has_hst := a.hst }
      | none => .ok s
    else if name = "PaymentDetails" then
      match va with
      | some arr =>
        match payFold s.res.payment arr with
        | .ok p => .ok { s with res := { s.res with payment := p } }
        | .error p => .error { s with res := { s.res with payment := p } }
      | none => .ok s
    else if name = "AmountTendered" then
      if s.res.payment.amount = "" then
        match cleanCurrency (extractOk g) with
        | some a =>
          .ok { s with res := { s.res with
            payment := { s.res.payment with amount := pyStrFloat a } } }
        | none => .ok s
      else .ok s
    else if name = "ChangeDue" then
      match cleanCurrency (extractOk g) with
      | some a =>
        .ok { s with res := { s.res with
          payment := { s.res.payment with change_due := pyStrFloat a } } }
      | none => .ok s
    else if name = "PaymentType" then
      if s.res.payment.ptype = "" then
        .ok { s with res := { s.res with
          payment := { s.res.payment with ptype := pyStrOr (extractOk g) } } }
      else .ok s
    else if name = "Items" then
      match va with
      | some arr =>
        match itemsFold s.tax_rates s.has_hst [] arr with
        | .ok its => .ok { s with res := { s.res with items := its } }
        | .error its => .error { s with res := { s.res with items := its } }
      | none => .ok s
    else .ok s

/-- The try-except around each field: a raised exception is caught, the
mutated state is kept, and the loop continues. -/
def stepCatch (s : ProcState) (nf : String × RawField) : ProcState :=
  match processFieldE s nf.1 nf.2 with
  | .ok t => t
  | .error t => t

/-- The field loop of _process_receipt_result. -/
def processFields (s : ProcState) (fields : List (String × RawField)) :
    ProcState :=
  fields.foldl stepCatch s

/-! ## Regional tax-number pre-processing (source lines 334-351) -/

/-- Attempted match of the tax-number pattern at the head of the list: HST
or GST (case-insensitive), optional whitespace, an optional hash, optional
whitespace, exactly nine digits, then greedy whitespace and an optional RT
plus four digits.  Returns the matched length. -/
def hstMatchAt (l : List Char) : Option Nat :=
  match (ciStrip "HST".toList l).orElse (fun _ => ciStrip "GST".toList l) with
  | none => none
  | some r1 =>
    let r2 := r1.dropWhile isPySpaceChar
    let r3 := match r2 with | '#' :: t => t | t => t
    let r4 := r3.dropWhile isPySpaceChar
    if (r4.take 9).length = 9 ∧ allDigits (r4.take 9) then
      let r5 := r4.drop 9
      let r6 := r5.dropWhile isPySpaceChar
      let r7 := match r6 with
        | a :: b :: c1 :: c2 :: c3 :: c4 :: t =>
          if (a == 'R' || a == 'r') && (b == 'T' || b == 't')
              && [c1, c2, c3, c4].all Char.isDigit then t
          else r6
        | _ => r6
      some (l.length - r7.length)
    else none

/-- Leftmost search for the tax-number pattern, returning the matched
text. -/
def hstSearch : List Char → Option (List Char)
  | [] => none
  | c :: t =>
    match hstMatchAt (c :: t) with
    | some n => some ((c :: t).take n)
    | none => hstSearch t

/-- Pre-processing of the MerchantTaxId field.  This step runs before the
field loop and outside the per-field try-except, so an exception here
reaches the outer handler. -/
def preProcessTaxId (s : ProcState) (fields : List (String × RawField)) :
    Except Unit ProcState :=
  match fields.lookup "MerchantTaxId" with
  | none => .ok s
  | some .malformed => .error ()
  | some f =>
    let v := extractOk f
    if pyTruthy v then
      let str := pyStr v
      match hstSearch str.toList with
      | some g =>
        .ok { s with
              res := { s.res with
                merchant := { s.res.merchant with
                  gst_hst_number := String.mk g } },
              has_hst := true, hst_number_found := true }
      | none =>
        .ok { s with res := { s.res with
          merchant := { s.res.merchant with tax_id := str } } }
    else .ok s

/-! ## Receipt assembler (_process_receipt_result, source lines 291-564) -/

/-- One detected document: a type label and the field mapping, in service
order. -/
structure DocI where
  doc_type : Option String
  fields : List (String × RawField)

/-- The remote analysis result: overall content and the document list; the
malformed constructor models a result object whose traversal raises. -/
inductive AnalyzeResultI where
  | mk (content : Option String) (documents : List DocI)
  | malformed

/-- Python truthiness rendering used for extracted_text. -/
def truthyStrOpt : Option String → String
  | none => ""
  | some c => if c = "" then "" else c

/-- Python truthiness used for receipt_type. -/
def truthyOptStr : Option String → Option String
  | none => none
  | some t => if t = "" then none else some t

/-- Final tax population (source lines 544-552). -/
def finalize (s : ProcState) : ReceiptR :=
  let taxStr := match s.total_tax with | some t => pyStrFloat t | none => ""
  { s.res with transaction := { s.res.transaction with
      tax := taxStr,
      tax_details :=
        { total_tax := taxStr,
          tax_rates := s.tax_rates.filterMap id,
          tax_amounts := s.tax_amounts,
          tax_types := s.tax_types.filter (fun t => t ≠ ""),
          has_hst := s.has_hst } } }

/-- Body of _process_receipt_result, with the outer try-except removed: an
error models an exception reaching the outer handler. -/
def processReceiptResultE (receipts : AnalyzeResultI)
    (image_id : Option String) : Except Unit ReceiptR :=
  match receipts with
  | .malformed => .error ()
  | .mk content documents =>
    let result := getEmptyResult image_id
    match documents with
    | [] => .ok result
    | doc :: _ =>
      let result := { result with
        image_id := image_id,
        extracted_text := truthyStrOpt content,
        receipt_type := truthyOptStr doc.doc_type }
      match doc.fields with
      | [] => .ok result
      | _ :: _ =>
        let s0 : ProcState :=
          { res := result, total_tax := none, tax_rates := [],
            tax_amounts := [], tax_types := [], subtotal := none,
            total := none, has_hst := false, hst_number_found := false }
        match preProcessTaxId s0 doc.fields with
        | .error _ => .error ()
        | .ok s1 => .ok (finalize (processFields s1 doc.fields))

/-- Public entry point: the outer try-except returns the empty record on
any escaped exception. -/
def processReceiptResult (receipts : AnalyzeResultI)
    (image_id : Option String) : ReceiptR :=
  match processReceiptResultE receipts image_id with
  | .ok r => r
  | .error _ => getEmptyResult image_id

/-! ## Auxiliary definitions used to state the claims -/

/-- Amount contributed by one tax-breakdown entry, read the same way the
TaxDetails loop reads it (none when the entry carries no usable amount). -/
def entryAmount : RawField → Option ℚ
  | .malformed => none
  | .mk _ _ _ _ _ _ _ _ _ _ vo =>
    match vo with
    | none => none
    | some obj =>
      match obj.lookup "Amount" with
      | none => none
      | some f =>
        match extractFieldValueE f with
        | .ok v => cleanCurrency v
        | .error _ => none

/-- Sum of the non-absent amounts of a tax-breakdown array (absent amounts
are skipped, not zero-filled). -/
def sumAmounts (arr : List RawField) : ℚ :=
  arr.foldl (fun a e => a + (entryAmount e).getD 0) 0

/-- Decidable check that the three keys a tax-breakdown entry is probed for
do not hold a malformed field. -/
def taxEntryKeysOk (obj : List (String × RawField)) : Bool :=
  ["Description", "Rate", "Amount"].all fun k =>
    match obj.lookup k with
    | some .malformed => false
    | _ => true

/-- Decidable check that processing a tax-breakdown array raises no
exception. -/
def taxArrOk (arr : List RawField) : Bool :=
  arr.all fun e =>
    match e with
    | .malformed => false
    | .mk _ _ _ _ _ _ _ _ _ _ vo =>
      match vo with
      | none => true
      | some obj => taxEntryKeysOk obj

/-- Decidable check that the MerchantTaxId pre-processing step raises no
exception on this field mapping. -/
def preOk (fields : List (String × RawField)) : Bool :=
  match fields.lookup "MerchantTaxId" with
  | some .malformed => false
  | _ => true

/-- Decidable check that a field list mentions neither of the two tax
field names. -/
def noTaxNames (l : List (String × RawField)) : Bool :=
  l.all fun nf => nf.1 ≠ "TotalTax" && nf.1 ≠ "TaxDetails"

/-- Insert a comma after every third character, working on a reversed digit
list (helper for the claim C9 formatter). -/
def addCommasRevAux : List Char → List Char
  | a :: b :: c :: d :: t => a :: b :: c :: ',' :: addCommasRevAux (d :: t)
  | l => l

/-- Thousands grouping of a big-endian digit list. -/
def addCommas (l : List Char) : List Char := (addCommasRevAux l.reverse).reverse

/-- Formatter for claim C9, following the words of the specification: the
decimal m / 10 ^ e rendered with a currency symbol, comma thousands
separators and surrounding whitespace. -/
def formatCurrency (m : Int) (e : Nat) : String :=
  " $" ++ (if m < 0 then "-" else "")
    ++ String.mk (addCommas (natDigitsBE (m.natAbs / 10 ^ e)))
    ++ (if e = 0 then ""
        else String.mk ('.' :: padLeftZeros e (natDigitsBE (m.natAbs % 10 ^ e))))
    ++ " "

/-- Nonnegative scalar inputs (one of the two conditions under which the
amended claim C8 proves idempotence). -/
def nonNegPy : PyVal → Prop
  | .vInt n => 0 ≤ n
  | .vFloat q => 0 ≤ q
  | _ => True

/-! ## Concrete field constructors for the counterexamples and witnesses -/

/-- Field carrying only display text. -/
def contentField (c : String) : RawField :=
  .mk none (some c) none none none none none none none none none

/-- Field carrying only a value_object. -/
def objField (obj : List (String × RawField)) : RawField :=
  .mk none none none none none none none none none none (some obj)

/-- Field carrying only a value_array. -/
def arrField (arr : List RawField) : RawField :=
  .mk none none none none none none none none none (some arr) none

/-- Tax breakdown used by the claim C1 counterexample: one HST entry of
thirteen dollars. -/
def c1arr : List RawField :=
  [objField [("Description", contentField "HST"), ("Amount", contentField "13.00")]]

/-- Analysis result where the TaxDetails field precedes the TotalTax field. -/
def c1input : AnalyzeResultI :=
  .mk none [⟨none, [("TaxDetails", arrField c1arr), ("TotalTax", contentField "5.00")]⟩]

/-- Analysis result whose MerchantTaxId field raises on access. -/
def c4input : AnalyzeResultI :=
  .mk none [⟨none, [("MerchantName", contentField "Test Store"),
                    ("MerchantTaxId", RawField.malformed)]⟩]

/-- The same analysis result without the MerchantTaxId field. -/
def c4inputB : AnalyzeResultI :=
  .mk none [⟨none, [("MerchantName", contentField "Test Store")]⟩]

/-- Analysis result for the claim C5 counterexample: a tax breakdown whose
single entry has an amount but no rate, then one taxable item. -/
def c5input : AnalyzeResultI :=
  .mk none
    [⟨none, [("TaxDetails",
                arrField [objField [("Description", contentField "HST"),
                                    ("Amount", contentField "5.00")]]),
             ("Items",
                arrField [objField [("Description", contentField "Widget"),
                                    ("TotalPrice", contentField "10.00")]])]⟩]

/-! ## Digit-list lemmas -/

theorem valLE_natDigsLEAux : ∀ f n, n ≤ f → valLE (natDigsLEAux f n) = n := by
  intro f
  induction f with
  | zero => intro n h; interval_cases n; rfl
  | succ f ih =>
    intro n h
    match n with
    | 0 => rfl
    | m + 1 =>
      have hlt : (m + 1) / 10 < m + 1 := Nat.div_lt_self (Nat.succ_pos m) (by omega)
      have hle : (m + 1) / 10 ≤ f := by omega
      show valLE ((m + 1) % 10 :: natDigsLEAux f ((m + 1) / 10)) = m + 1
      simp only [valLE, ih _ hle]
      omega

theorem mem_natDigsLEAux_lt : ∀ f n d, d ∈ natDigsLEAux f n → d < 10 := by
  intro f
  induction f with
  | zero => intro n d h; simp [natDigsLEAux] at h
  | succ f ih =>
    intro n d h
    match n with
    | 0 => simp [natDigsLEAux] at h
    | m + 1 =>
      simp only [natDigsLEAux, List.mem_cons] at h
      rcases h with h | h
      · omega
      · exact ih _ _ h

theorem length_natDigsLEAux :
    ∀ f n k, n ≤ f → n < 10 ^ k → (natDigsLEAux f n).length ≤ k := by
  intro f
  induction f with
  | zero =>
    intro n k h hk; interval_cases n; simp [natDigsLEAux]
  | succ f ih =>
    intro n k h hk
    match n with
    | 0 => simp [natDigsLEAux]
    | m + 1 =>
      match k with
      | 0 => simp at hk
      | k + 1 =>
        have hlt : (m + 1) / 10 < m + 1 := Nat.div_lt_self (Nat.succ_pos m) (by omega)
        have h1 : (m + 1) / 10 ≤ f := by omega
        have h2 : (m + 1) / 10 < 10 ^ k := by
          refine (Nat.div_lt_iff_lt_mul (by omega : 0 < 10)).2 ?_
          calc m + 1 < 10 ^ (k + 1) := hk
            _ = 10 ^ k * 10 := by ring
        have := ih _ _ h1 h2
        show (((m + 1) % 10) :: natDigsLEAux f ((m + 1) / 10)).length ≤ k + 1
        simpa using this

theorem charToDigit_digChar {d : Nat} (h : d < 10) :
    charToDigit (digChar d) = d := by
  interval_cases d <;> rfl

theorem digChar_mem_digitChars {d : Nat} (h : d < 10) :
    digChar d ∈ digitChars := by
  interval_cases d <;> decide

theorem mem_natDigitsBE {n : Nat} {c : Char} (h : c ∈ natDigitsBE n) :
    c ∈ digitChars := by
  unfold natDigitsBE at h
  split at h
  · simp only [List.mem_singleton] at h; subst h; decide
  · simp only [List.mem_reverse, List.mem_map] at h
    obtain ⟨d, hd, rfl⟩ := h
    exact digChar_mem_digitChars (mem_natDigsLEAux_lt _ _ _ hd)

theorem foldl_digits_reverse :
    ∀ (ds : List Nat) (a : Nat),
      ds.reverse.foldl (fun a d => a * 10 + d) a = a * 10 ^ ds.length + valLE ds := by
  intro ds
  induction ds with
  | nil => intro a; simp [valLE]
  | cons d t ih =>
    intro a
    simp only [List.reverse_cons, List.foldl_append, List.foldl_cons,
      List.foldl_nil, ih, valLE, List.length_cons]
    ring

theorem natValChars_natDigitsBE (n : Nat) :
    natValChars (natDigitsBE n) = n := by
  unfold natDigitsBE
  split
  · subst n; rfl
  · unfold natValChars
    rw [← List.map_reverse, List.map_map]
    have hmap : (natDigsLE n).reverse.map (charToDigit ∘ digChar)
        = (natDigsLE n).reverse := by
      have h1 : (natDigsLE n).reverse.map (charToDigit ∘ digChar)
          = (natDigsLE n).reverse.map id :=
        List.map_congr_left fun d hd =>
          charToDigit_digChar
            (mem_natDigsLEAux_lt _ _ _ (List.mem_reverse.1 hd))
      simpa using h1
    rw [hmap]
    unfold natValD
    rw [foldl_digits_reverse]
    simpa using valLE_natDigsLEAux n n le_rfl

/-! ## Facts about the ten digit characters -/

theorem digit_isDigit {c : Char} (h : c ∈ digitChars) : c.isDigit = true := by
  fin_cases h <;> decide

theorem digit_ne_dot {c : Char} (h : c ∈ digitChars) : c ≠ '.' := by
  fin_cases h <;> decide

theorem digit_ne_dash {c : Char} (h : c ∈ digitChars) : c ≠ '-' := by
  fin_cases h <;> decide

theorem digit_ne_plus {c : Char} (h : c ∈ digitChars) : c ≠ '+' := by
  fin_cases h <;> decide

theorem digit_not_strip {c : Char} (h : c ∈ digitChars) :
    currencyStrip c = false := by
  fin_cases h <;> decide

theorem digit_keepQty {c : Char} (h : c ∈ digitChars) :
    (c.isDigit || c == '.') = true := by
  fin_cases h <;> decide

/-! ## Roundtrip lemmas for the rendered decimal strings -/

theorem natDigitsBE_ne_nil (n : Nat) : natDigitsBE n ≠ [] := by
  unfold natDigitsBE
  split
  · simp
  · rename_i hn
    intro hcon
    rw [List.reverse_eq_nil_iff, List.map_eq_nil_iff] at hcon
    have := valLE_natDigsLEAux n n le_rfl
    rw [show natDigsLE n = natDigsLEAux n n from rfl] at hcon
    rw [hcon] at this
    simp [valLE] at this
    omega

theorem dot_not_mem_natDigitsBE (n : Nat) : '.' ∉ natDigitsBE n := by
  intro h
  exact digit_ne_dot (mem_natDigitsBE h) rfl

theorem allDigits_natDigitsBE (n : Nat) : allDigits (natDigitsBE n) = true := by
  unfold allDigits
  rw [List.all_eq_true]
  intro c hc
  exact digit_isDigit (mem_natDigitsBE hc)

theorem length_natDigitsBE_le {n e : Nat} (h : n < 10 ^ e) (he : 0 < e) :
    (natDigitsBE n).length ≤ e := by
  unfold natDigitsBE
  split
  · simpa using he
  · rw [List.length_reverse, List.length_map]
    exact length_natDigsLEAux n n e le_rfl h

theorem padLeftZeros_length {e : Nat} {l : List Char} (h : l.length ≤ e) :
    (padLeftZeros e l).length = e := by
  unfold padLeftZeros
  rw [List.length_append, List.length_replicate]
  omega

theorem natValChars_padLeftZeros (e : Nat) (l : List Char) :
    natValChars (padLeftZeros e l) = natValChars l := by
  unfold natValChars padLeftZeros natValD
  rw [List.map_append, List.foldl_append]
  have hz : (List.replicate (e - l.length) '0').map charToDigit
      = List.replicate (e - l.length) (0 : Nat) := by
    rw [List.map_replicate]; rfl
  rw [hz]
  have hfold : ∀ (k : Nat),
      (List.replicate k (0 : Nat)).foldl (fun a d => a * 10 + d) 0 = 0 := by
    intro k
    induction k with
    | zero => rfl
    | succ k ih => simpa [List.replicate_succ] using ih
  rw [hfold]

theorem allDigits_padLeftZeros {e : Nat} {l : List Char}
    (h : allDigits l = true) : allDigits (padLeftZeros e l) = true := by
  unfold allDigits at *
  rw [List.all_eq_true] at *
  intro c hc
  unfold padLeftZeros at hc
  rw [List.mem_append] at hc
  rcases hc with hc | hc
  · rw [List.eq_of_mem_replicate hc]; decide
  · exact h c hc

theorem dot_not_mem_padLeftZeros {e : Nat} {n : Nat} :
    '.' ∉ padLeftZeros e (natDigitsBE n) := by
  intro h
  unfold padLeftZeros at h
  rw [List.mem_append] at h
  rcases h with h | h
  · have := List.eq_of_mem_replicate h
    simp at this
  · exact dot_not_mem_natDigitsBE n h

theorem splitDot_append {a b : List Char} (ha : '.' ∉ a) (hb : '.' ∉ b) :
    splitDot (a ++ '.' :: b) = some (a, b) := by
  induction a with
  | nil =>
    have hc : b.contains '.' = false := by simpa using hb
    show splitDot ('.' :: b) = some ([], b)
    unfold splitDot
    rw [if_pos rfl, hc]
    simp
  | cons c t ih =>
    have hc : c ≠ '.' := fun hcc => ha (by simp [hcc])
    have ht : '.' ∉ t := fun htt => ha (by simp [htt])
    simp [splitDot, hc, ih ht]

theorem parsePosDec_natDigitsBE (n : Nat) :
    parsePosDec (natDigitsBE n) = some (n, 0) := by
  unfold parsePosDec
  have hdot : (natDigitsBE n).contains '.' = false := by
    simpa using dot_not_mem_natDigitsBE n
  rw [hdot]
  simp only [Bool.false_eq_true, if_false]
  have hne : (natDigitsBE n).isEmpty = false := by
    rw [List.isEmpty_eq_false_iff_exists_mem]
    rcases List.exists_mem_of_ne_nil _ (natDigitsBE_ne_nil n) with ⟨c, hc⟩
    exact ⟨c, hc⟩
  rw [allDigits_natDigitsBE, hne]
  simp [natValChars_natDigitsBE]

theorem parsePosDec_decRenderN (m : Nat) {e : Nat} (he : 0 < e) :
    parsePosDec (decRenderN m e) = some (m, e) := by
  unfold decRenderN parsePosDec
  have hlen : (natDigitsBE (m % 10 ^ e)).length ≤ e := by
    refine length_natDigitsBE_le ?_ he
    exact Nat.mod_lt _ (Nat.pos_pow_of_pos e (by omega))
  have hdotmem : '.' ∈ natDigitsBE (m / 10 ^ e) ++
      '.' :: padLeftZeros e (natDigitsBE (m % 10 ^ e)) := by
    rw [List.mem_append]; right; simp
  have hdot : (natDigitsBE (m / 10 ^ e) ++
      '.' :: padLeftZeros e (natDigitsBE (m % 10 ^ e))).contains '.' = true := by
    simp
  rw [hdot]
  simp only [if_true]
  rw [splitDot_append (dot_not_mem_natDigitsBE _) dot_not_mem_padLeftZeros]
  dsimp only
  rw [allDigits_natDigitsBE,
    allDigits_padLeftZeros (allDigits_natDigitsBE (m % 10 ^ e))]
  have hne : ((natDigitsBE (m / 10 ^ e)) ++
      padLeftZeros e (natDigitsBE (m % 10 ^ e))).isEmpty = false := by
    rw [List.isEmpty_eq_false_iff_exists_mem]
    rcases List.exists_mem_of_ne_nil _ (natDigitsBE_ne_nil (m / 10 ^ e)) with ⟨c, hc⟩
    exact ⟨c, by rw [List.mem_append]; exact Or.inl hc⟩
  rw [hne]
  simp only [Bool.and_self, Bool.not_false, Bool.and_true, if_true]
  rw [natValChars_padLeftZeros, natValChars_natDigitsBE,
    natValChars_natDigitsBE, padLeftZeros_length hlen]
  have hdm : m / 10 ^ e * 10 ^ e + m % 10 ^ e = m := Nat.div_add_mod' m (10 ^ e)
  rw [hdm]

/-! ## Trailing-zero normalization lemmas -/

theorem reduceDec_nonneg : ∀ (e : Nat) (m : Int), 0 ≤ m → 0 ≤ (reduceDec m e).1 := by
  intro e
  induction e with
  | zero => intro m hm; exact hm
  | succ e ih =>
    intro m hm
    unfold reduceDec
    split
    · exact ih _ (Int.ediv_nonneg hm (by omega))
    · exact hm

theorem reduceDec_mod : ∀ (e : Nat) (m : Int),
    (reduceDec m e).2 ≠ 0 → (reduceDec m e).1 % 10 ≠ 0 := by
  intro e
  induction e with
  | zero => intro m h; simp [reduceDec] at h
  | succ e ih =>
    intro m h
    unfold reduceDec at h ⊢
    by_cases hd : m % 10 = 0
    · rw [if_pos hd] at h ⊢
      exact ih _ h
    · rw [if_neg hd] at h ⊢
      simpa using hd

theorem reduceDec_fix {m : Int} (e : Nat) (h : m % 10 ≠ 0) :
    reduceDec m e = (m, e) := by
  cases e with
  | zero => rfl
  | succ e => unfold reduceDec; rw [if_neg h]

/-! ## Self-parse of the canonical quantity strings (core of claim C8) -/

theorem str_empty_append (s : String) : "" ++ s = s := by
  cases s; rfl

theorem keepQty_decRenderN {k e : Nat} {c : Char} (h : c ∈ decRenderN k e) :
    (c.isDigit || c == '.') = true := by
  unfold decRenderN at h
  rw [List.mem_append] at h
  rcases h with h | h
  · exact digit_keepQty (mem_natDigitsBE h)
  · rw [List.mem_cons] at h
    rcases h with rfl | h
    · decide
    · unfold padLeftZeros at h
      rw [List.mem_append] at h
      rcases h with h | h
      · rw [List.eq_of_mem_replicate h]; decide
      · exact digit_keepQty (mem_natDigitsBE h)

theorem cleanQuantity_mk_of_parse {l : List Char} (hne : l ≠ [])
    (hkeep : ∀ c ∈ l, (c.isDigit || c == '.') = true)
    {m0 e0 : Nat} (hp : parsePosDec l = some (m0, e0)) :
    cleanQuantity (.vStr (String.mk l)) = fmtCore (m0 : Int) e0 := by
  have hsne : ¬(String.mk l = "") := by
    intro h
    exact hne (congrArg String.data h)
  have htl : (String.mk l).toList = l := rfl
  have hfilt : l.filter (fun c => c.isDigit || c == '.') = l :=
    List.filter_eq_self.mpr hkeep
  have hemp : l.isEmpty = false := by
    rw [List.isEmpty_eq_false_iff_exists_mem]
    rcases List.exists_mem_of_ne_nil _ hne with ⟨c, hc⟩
    exact ⟨c, hc⟩
  simp only [cleanQuantity, if_neg hsne, htl, hfilt, hemp, hp,
    Bool.false_eq_true, if_false]

theorem fmtCore_cast_whole (k : Nat) :
    fmtCore (k : Int) 0 = String.mk (natDigitsBE k) := by
  have h0 : reduceDec (k : Int) 0 = ((k : Int), 0) := rfl
  unfold fmtCore
  rw [h0]
  simp only [if_pos]
  unfold intStr
  rw [if_neg (not_lt.mpr (Int.natCast_nonneg _)), Int.natAbs_ofNat]
  exact str_empty_append _

theorem fmtCore_cast_frac (k : Nat) {e2 : Nat} (he : e2 ≠ 0)
    (hmod : (k : Int) % 10 ≠ 0)
    (hs1 : ¬((natDigitsBE k).length + 4 ≤ e2))
    (hs2 : ¬(e2 + 17 ≤ (natDigitsBE k).length)) :
    fmtCore (k : Int) e2 = String.mk (decRenderN k e2) := by
  unfold fmtCore fracRender
  rw [reduceDec_fix e2 hmod]
  simp only [if_neg he, if_neg (not_lt.mpr (Int.natCast_nonneg k)),
    Int.natAbs_ofNat, if_neg hs1, if_neg hs2]
  exact str_empty_append _

theorem hasSubList_of_mem {c : Char} :
    ∀ {l : List Char}, c ∈ l → hasSubList [c] l = true := by
  intro l h
  induction l with
  | nil => simp at h
  | cons a t ih =>
    unfold hasSubList
    rw [List.mem_cons] at h
    rcases h with rfl | h
    · have hpre : [c].isPrefixOf (c :: t) = true := by
        simp [List.isPrefixOf]
      rw [hpre, Bool.true_or]
    · rw [ih h, Bool.or_true]

theorem strContains_e_of_mem {s : String} (h : 'e' ∈ s.toList) :
    strContains s "e" = true := by
  show hasSubList ['e'] s.toList = true
  exact hasSubList_of_mem h

theorem cleanQuantity_fmtCore (m : Int) (e : Nat) (hm : 0 ≤ m)
    (hnosci : strContains (fmtCore m e) "e" = false) :
    cleanQuantity (.vStr (fmtCore m e)) = fmtCore m e := by
  have hp1 : 0 ≤ (reduceDec m e).1 := reduceDec_nonneg e m hm
  have hcast : ((reduceDec m e).1.natAbs : Int) = (reduceDec m e).1 :=
    Int.natAbs_of_nonneg hp1
  by_cases hz : (reduceDec m e).2 = 0
  · -- whole value: rendered as a plain digit string
    have hf : fmtCore m e = String.mk (natDigitsBE (reduceDec m e).1.natAbs) := by
      unfold fmtCore
      rw [if_pos hz]
      unfold intStr
      rw [if_neg (not_lt.mpr hp1)]
      exact str_empty_append _
    rw [hf]
    rw [cleanQuantity_mk_of_parse (natDigitsBE_ne_nil _)
      (fun c hc => digit_keepQty (mem_natDigitsBE hc))
      (parsePosDec_natDigitsBE _)]
    exact fmtCore_cast_whole _
  · -- fractional value: mantissa not a multiple of ten
    have hmod : (reduceDec m e).1 % 10 ≠ 0 := reduceDec_mod e m hz
    have hmodn : ((reduceDec m e).1.natAbs : Int) % 10 ≠ 0 := by
      rw [hcast]; exact hmod
    by_cases hs1 : (natDigitsBE (reduceDec m e).1.natAbs).length + 4
        ≤ (reduceDec m e).2
    · -- a scientific rendering carries the letter e, excluded by hypothesis
      exfalso
      have hfe : fmtCore m e = String.mk
          (sciMant (natDigitsBE (reduceDec m e).1.natAbs)
            ++ sciExp '-' ((reduceDec m e).2 + 1
              - (natDigitsBE (reduceDec m e).1.natAbs).length)) := by
        unfold fmtCore fracRender
        rw [if_neg hz, if_neg (not_lt.mpr hp1), if_pos hs1]
        exact str_empty_append _
      rw [hfe] at hnosci
      have hmem : 'e' ∈ (String.mk
          (sciMant (natDigitsBE (reduceDec m e).1.natAbs)
            ++ sciExp '-' ((reduceDec m e).2 + 1
              - (natDigitsBE (reduceDec m e).1.natAbs).length))).toList := by
        show 'e' ∈ sciMant (natDigitsBE (reduceDec m e).1.natAbs)
          ++ sciExp '-' ((reduceDec m e).2 + 1
            - (natDigitsBE (reduceDec m e).1.natAbs).length)
        rw [List.mem_append]
        right
        exact List.mem_cons_self _ _
      rw [strContains_e_of_mem hmem] at hnosci
      exact Bool.noConfusion hnosci
    · by_cases hs2 : (reduceDec m e).2 + 17
          ≤ (natDigitsBE (reduceDec m e).1.natAbs).length
      · exfalso
        have hfe : fmtCore m e = String.mk
            (sciMant (natDigitsBE (reduceDec m e).1.natAbs)
              ++ sciExp '+' ((natDigitsBE (reduceDec m e).1.natAbs).length
                - 1 - (reduceDec m e).2)) := by
          unfold fmtCore fracRender
          rw [if_neg hz, if_neg (not_lt.mpr hp1), if_neg hs1, if_pos hs2]
          exact str_empty_append _
        rw [hfe] at hnosci
        have hmem : 'e' ∈ (String.mk
            (sciMant (natDigitsBE (reduceDec m e).1.natAbs)
              ++ sciExp '+' ((natDigitsBE (reduceDec m e).1.natAbs).length
                - 1 - (reduceDec m e).2))).toList := by
          show 'e' ∈ sciMant (natDigitsBE (reduceDec m e).1.natAbs)
            ++ sciExp '+' ((natDigitsBE (reduceDec m e).1.natAbs).length
              - 1 - (reduceDec m e).2)
          rw [List.mem_append]
          right
          exact List.mem_cons_self _ _
        rw [strContains_e_of_mem hmem] at hnosci
        exact Bool.noConfusion hnosci
      · -- positional rendering with a dot: parses back to the same pair
        have hf : fmtCore m e
            = String.mk (decRenderN (reduceDec m e).1.natAbs (reduceDec m e).2) := by
          unfold fmtCore fracRender
          rw [if_neg hz, if_neg (not_lt.mpr hp1), if_neg hs1, if_neg hs2]
          exact str_empty_append _
        rw [hf]
        have hposn : 0 < (reduceDec m e).2 := Nat.pos_of_ne_zero hz
        have hdne : decRenderN (reduceDec m e).1.natAbs (reduceDec m e).2 ≠ [] := by
          intro hcon
          have : '.' ∈ decRenderN (reduceDec m e).1.natAbs (reduceDec m e).2 := by
            unfold decRenderN
            rw [List.mem_append]; right; simp
          rw [hcon] at this
          simp at this
        rw [cleanQuantity_mk_of_parse hdne
          (fun c hc => keepQty_decRenderN hc)
          (parsePosDec_decRenderN _ hposn)]
        exact fmtCore_cast_frac _ hz hmodn hs1 hs2

theorem cleanQuantity_one : cleanQuantity (.vStr "1") = "1" := by decide

/-- C8, counterexample.  normalizeQuantity is not idempotent, on two
counts: the float -2.5 renders as "-2.5", but a second pass strips the
minus sign (the text cleaning keeps only digits and dots) and returns
"2.5"; and the nonnegative float 0.00001 renders scientifically as
"1e-05", which a second pass strips to the digits "105". -/
theorem c8_counterexample :
    cleanQuantity (PyVal.vFloat (-5 / 2)) = "-2.5" ∧
    cleanQuantity (.vStr (cleanQuantity (PyVal.vFloat (-5 / 2)))) = "2.5" ∧
    cleanQuantity (.vStr (cleanQuantity (PyVal.vFloat (-5 / 2))))
      ≠ cleanQuantity (PyVal.vFloat (-5 / 2)) ∧
    cleanQuantity (PyVal.vFloat (1 / 100000)) = "1e-05" ∧
    cleanQuantity (.vStr (cleanQuantity (PyVal.vFloat (1 / 100000)))) = "105" ∧
    cleanQuantity (.vStr (cleanQuantity (PyVal.vFloat (1 / 100000))))
      ≠ cleanQuantity (PyVal.vFloat (1 / 100000)) := by
  refine ⟨by decide, by decide, by decide, by decide, by decide, by decide⟩

/-- C8, amended.  normalizeQuantity is idempotent exactly on the inputs
whose first normalization renders positionally: for every nonnegative
input (absent, text, nonnegative numerics) whose first output carries no
exponent letter e, a second pass returns the same string.  Negative
numerics break idempotence because the second pass strips the sign, and
values rendered scientifically break it because the second pass strips the
letter and sign of the exponent.  The three concrete equations of the
claim hold as stated. -/
theorem c8_amended :
    (∀ x : PyVal, nonNegPy x →
      strContains (cleanQuantity x) "e" = false →
      cleanQuantity (.vStr (cleanQuantity x)) = cleanQuantity x) ∧
    cleanQuantity (.vStr "") = "1" ∧
    cleanQuantity (.vFloat 3) = "3" ∧
    cleanQuantity (.vFloat (5 / 2)) = "2.5" := by
  refine ⟨?_, by decide, by decide, by decide⟩
  intro x hx hsci
  match x with
  | .vNone =>
    show cleanQuantity (.vStr "1") = "1"
    exact cleanQuantity_one
  | .vInt n =>
    exact cleanQuantity_fmtCore n 0 hx hsci
  | .vFloat q =>
    have hq0 : 0 ≤ q := hx
    rcases hq : qToPair q with _ | ⟨m2, e2⟩
    · simp only [cleanQuantity, hq]
      exact cleanQuantity_one
    · have hm2 : 0 ≤ m2 := by
        simp only [qToPair] at hq
        split at hq
        · rcases Option.some.inj hq with h
          have hnum : 0 ≤ q.num := Rat.num_nonneg.mpr hq0
          have : m2 = q.num * ((10 ^ max (stripP 2 q.den q.den).1
              (stripP 5 (stripP 2 q.den q.den).2 (stripP 2 q.den q.den).2).1) / q.den : Nat) := by
            have := congrArg Prod.fst h
            simpa using this.symm
          rw [this]
          exact mul_nonneg hnum (Int.natCast_nonneg _)
        · exact absurd hq (by simp)
      simp only [cleanQuantity, hq] at hsci ⊢
      exact cleanQuantity_fmtCore m2 e2 hm2 hsci
  | .vStr s =>
    by_cases hs : s = ""
    · subst hs
      show cleanQuantity (.vStr "1") = "1"
      exact cleanQuantity_one
    · by_cases hclean : (s.toList.filter (fun c => c.isDigit || c == '.')).isEmpty
      · simp only [cleanQuantity, if_neg hs, hclean, if_true] at hsci ⊢
        exact cleanQuantity_fmtCore 1 0 (by norm_num) hsci
      · rcases hp : parsePosDec (s.toList.filter (fun c => c.isDigit || c == '.'))
            with _ | ⟨p1, p2⟩
        · simp only [cleanQuantity, if_neg hs, hclean, if_false, hp]
          exact cleanQuantity_one
        · simp only [cleanQuantity, if_neg hs, hclean, if_false, hp] at hsci ⊢
          exact cleanQuantity_fmtCore (p1 : Int) p2 (Int.natCast_nonneg _) hsci

/-- C8, witness for the amended idempotence on a concrete nonnegative
positionally rendered input. -/
theorem c8_witness :
    nonNegPy (PyVal.vFloat (7 / 4)) ∧
    strContains (cleanQuantity (PyVal.vFloat (7 / 4))) "e" = false ∧
    cleanQuantity (.vStr (cleanQuantity (PyVal.vFloat (7 / 4))))
      = cleanQuantity (PyVal.vFloat (7 / 4)) :=
  ⟨by norm_num [nonNegPy], by decide,
    c8_amended.1 _ (by norm_num [nonNegPy]) (by decide)⟩

/-! ## Claim C2: field extractor precedence -/

/-- C2, code behavior at the failing input.  A field of kind number whose
display text is the empty string: the source returns the empty content
string (its check is only is-not-None), although both the specification and
the inline source comment require a non-empty content, under which the
typed accessor value 5 should have been returned.  The second conjunct
shows the typed accessor is indeed reachable once content is absent. -/
theorem c2_code_behavior :
    extractFieldValueE (RawField.mk (some "number") (some "") none (some 5)
        none none none none none none none) = .ok (PyVal.vStr "") ∧
    extractFieldValueE (RawField.mk (some "number") none none (some 5)
        none none none none none none none) = .ok (PyVal.vFloat 5) :=
  ⟨rfl, rfl⟩

/-! ## Claim C10: zero-rate keyword priority in the tax status -/

/-- C10.  When the uppercased description carries a zero-rate marker (the
token ZERO or the token 0%) the status is ZERO-RATED even when an EXEMPT
token is also present, for either value of the regional-tax flag; with no
markers at all the document-level default applies (TAXABLE when the flag is
set, UNKNOWN otherwise). -/
theorem c10_zero_priority (hst : Bool) (it : ItemR) :
    ((strContains (strUpper it.description) "ZERO" = true ∨
      strContains (strUpper it.description) "0%" = true) →
     strContains (strUpper it.description) "EXEMPT" = true →
     (taxStatusStage hst it).tax_status = "ZERO-RATED") ∧
    (strContains (strUpper it.description) "ZERO" = false →
     strContains (strUpper it.description) "0%" = false →
     strContains (strUpper it.description) "EXEMPT" = false →
     (taxStatusStage hst it).tax_status
       = if hst then "TAXABLE" else "UNKNOWN") := by
  constructor
  · intro hz _
    rcases hz with hz | hz <;> simp [taxStatusStage, hz]
  · intro h1 h2 h3
    simp [taxStatusStage, h1, h2, h3]

/-- C10, witness: a description with both markers gets ZERO-RATED even with
the regional flag off. -/
theorem c10_witness :
    (taxStatusStage false
      { itemInit with description := "Zero Exempt Supply" }).tax_status
      = "ZERO-RATED" :=
  (c10_zero_priority false _).1 (Or.inl (by decide)) (by decide)

/-! ## Claim C6: price and total cross-inference -/

/-- C6.  With a positive parsed quantity and exactly one of unit price and
line total present, the other is derived by cross-multiplication rounded to
two decimals; a zero quantity on the division side leaves the unit price
absent; with both sides absent nothing is inferred. -/
theorem c6_inference (it : ItemR) :
    (∀ q t : ℚ, parseQFloat it.quantity = some q → 0 < q →
      parseQFloat it.total = some t → it.price = "" → it.total ≠ "" →
      inferPriceTotal it = { it with price := pyStrFloat (round2 (t / q)) }) ∧
    (∀ q p : ℚ, parseQFloat it.quantity = some q → 0 < q →
      parseQFloat it.price = some p → it.total = "" → it.price ≠ "" →
      inferPriceTotal it = { it with total := pyStrFloat (round2 (p * q)) }) ∧
    (parseQFloat it.quantity = some 0 → it.price = "" →
      inferPriceTotal it = it) ∧
    (it.price = "" → it.total = "" → inferPriceTotal it = it) := by
  have hqne : ∀ x : ℚ, parseQFloat it.quantity = some x → it.quantity ≠ "" := by
    intro x hx hq
    rw [hq] at hx
    exact Option.noConfusion hx
  refine ⟨?_, ?_, ?_, ?_⟩
  · intro q t hq hqpos ht hp htne
    unfold inferPriceTotal
    rw [if_pos ⟨htne, hp, hqne q hq⟩, hq, ht]
    simp only [if_pos hqpos]
  · intro q p hq hqpos hp ht hpne
    unfold inferPriceTotal
    rw [if_neg (fun h => h.1 ht), if_pos ⟨hpne, ht, hqne q hq⟩, hq, hp]
  · intro hq0 hp
    unfold inferPriceTotal
    by_cases htot : it.total = ""
    · rw [if_neg (fun h => h.1 htot), if_neg (fun h => h.1 hp)]
    · rw [if_pos ⟨htot, hp, hqne 0 hq0⟩, hq0]
      rcases h2 : parseQFloat it.total with _ | t
      · rfl
      · simp only [if_neg (lt_irrefl (0 : ℚ))]
  · intro hp ht
    unfold inferPriceTotal
    rw [if_neg (fun h => h.1 ht), if_neg (fun h => h.1 hp)]

/-- C6, witness: the two inference examples of the claim, quantity 2 with
line total 10.00 deriving unit price 5.00, and unit price 3.00 with
quantity 4 deriving line total 12.00. -/
theorem c6_witness :
    inferPriceTotal { itemInit with quantity := "2", total := "10.0" }
      = { itemInit with quantity := "2", total := "10.0", price := "5.0" } ∧
    inferPriceTotal { itemInit with quantity := "4", price := "3.0" }
      = { itemInit with quantity := "4", price := "3.0", total := "12.0" } := by
  constructor
  · have h := (c6_inference { itemInit with quantity := "2", total := "10.0" }).1
      2 10 (by decide) (by decide) (by decide) rfl (by decide)
    exact h.trans (by decide)
  · have h := (c6_inference { itemInit with quantity := "4", price := "3.0" }).2.1
      4 3 (by decide) (by decide) (by decide) rfl (by decide)
    exact h.trans (by decide)

/-! ## Claim C5: per-item tax amount -/

/-- C5, counterexample.  A breakdown entry with an amount but no parsable
rate leaves a None placeholder at the head of the internal rate list; the
item is TAXABLE, the regional flag is set and the line total is known, yet
no tax amount is computed (the placeholder multiplication raises and the
bare except clears it), while the claim promises a computed amount, which
would be nonempty. -/
theorem c5_counterexample :
    (processReceiptResult c5input (some "img")).transaction.tax_details.has_hst
      = true ∧
    (processReceiptResult c5input (some "img")).items =
      [{ description := "Widget", quantity := "1", price := "10.0",
         total := "10.0", tax_status := "TAXABLE", tax_amount := "",
         final_price := "10.0", discount := "", savings := "" }] ∧
    ("" : String) ≠ pyStrFloat (round2 (10 * (13 / 100))) := by
  exact ⟨by decide, by decide, by decide⟩

/-- C5, amended.  The per-item tax amount is computed exactly when the
status is TAXABLE, the regional flag is set and the line total is
nonempty.  Under that guard the amount is the line total times the first
raw entry of the internal rate list (fallback rate 0.13 when the list is
empty) rounded to two decimals and the final price is the rounded sum,
except that a None placeholder at the head of the rate list (kept for
every breakdown entry whose rate did not parse) makes the multiplication
raise: the bare except clears the tax amount and the final price falls
back to the line total verbatim.  When the guard fails no tax amount is
computed: the item is unchanged but for its final price, which becomes the
line total when that is nonempty and stays absent when the line total is
absent. -/
theorem c5_amended (rates : List (Option ℚ)) (hst : Bool) (it : ItemR) :
    (∀ t : ℚ, it.tax_status = "TAXABLE" → hst = true →
      parseQFloat it.total = some t → it.total ≠ "" →
      ((rates = [] →
        taxAmountStage rates hst it
          = { it with
              tax_amount := pyStrFloat (round2 (t * (13 / 100))),
              final_price := pyStrFloat (round2 (t + round2 (t * (13 / 100)))) }) ∧
      (∀ (r : ℚ) (tl : List (Option ℚ)), rates = some r :: tl →
        taxAmountStage rates hst it
          = { it with
              tax_amount := pyStrFloat (round2 (t * r)),
              final_price := pyStrFloat (round2 (t + round2 (t * r))) }) ∧
      (∀ tl : List (Option ℚ), rates = none :: tl →
        taxAmountStage rates hst it
          = { it with tax_amount := "", final_price := it.total }))) ∧
    (¬(it.tax_status = "TAXABLE" ∧ hst = true ∧ it.total ≠ "") →
      ((it.total ≠ "" →
        taxAmountStage rates hst it = { it with final_price := it.total }) ∧
      (it.total = "" → taxAmountStage rates hst it = it))) := by
  constructor
  · intro t h1 h2 h3 h4
    refine ⟨?_, ?_, ?_⟩
    · rintro rfl
      unfold taxAmountStage
      rw [if_pos ⟨h1, h2, h4⟩, h3]
    · rintro r tl rfl
      unfold taxAmountStage
      rw [if_pos ⟨h1, h2, h4⟩, h3]
    · rintro tl rfl
      unfold taxAmountStage
      rw [if_pos ⟨h1, h2, h4⟩, h3]
  · intro hguard
    constructor
    · intro htot
      unfold taxAmountStage
      rw [if_neg hguard, if_pos htot]
    · intro htot
      unfold taxAmountStage
      rw [if_neg hguard, if_neg (fun hcon => hcon htot)]

/-- C5, witness for the amended statement: empty rate list, fallback rate
0.13 on a ten-dollar line total gives tax 1.30 and final price 11.30. -/
theorem c5_witness :
    taxAmountStage [] true { itemInit with tax_status := "TAXABLE", total := "10.0" }
      = { itemInit with
          tax_status := "TAXABLE", total := "10.0",
          tax_amount := "1.3", final_price := "11.3" } := by
  have h := ((c5_amended [] true
    { itemInit with tax_status := "TAXABLE", total := "10.0" }).1 10
    rfl rfl (by decide) (by decide)).1 rfl
  exact h.trans (by decide)

/-! ## Claim C7: categorizer special case for reusable bags -/

/-- C7, counterexample.  The reusable-bag rule sits after the keyword-table
loop in the source, so a description holding bag, reusable and a groceries
keyword is categorized by the table first: Reusable Milk Bag maps to
Groceries, not to the household category the claim promises. -/
theorem c7_counterexample :
    categorizeItem "Reusable Milk Bag" = "Groceries" ∧
    categorizeItem "Reusable Milk Bag" ≠ "Household" := by
  exact ⟨by decide, by decide⟩

theorem findCat_none {L : List (String × List String)} {d : String}
    (h : findCat L d = none) :
    ∀ p ∈ L, p.2.any (fun k => strContains d k) = false := by
  induction L with
  | nil => intro p hp; simp at hp
  | cons q rest ih =>
    intro p hp
    unfold findCat at h
    rcases q with ⟨c, ks⟩
    by_cases hks : ks.any (fun k => strContains d k) = true
    · rw [if_pos hks] at h
      exact Option.noConfusion h
    · rw [List.mem_cons] at hp
      rcases hp with rfl | hp
      · simpa using hks
      · rw [if_neg hks] at h
        exact ih h p hp

/-- C7, amended.  The ordered table lookup always wins: when some keyword
of the table matches, the first matching category is returned even if the
description also holds bag and reusable; the bag-and-reusable special case
after the loop is unreachable, because bag is itself a household keyword,
so any description with no table match at all falls to the default
Groceries. -/
theorem c7_amended :
    (∀ (d : String) (c : String),
      findCat categoryMappings (strLower d) = some c →
      categorizeItem d = displayCat c) ∧
    (∀ d : String,
      findCat categoryMappings (strLower d) = none →
      categorizeItem d = "Groceries") := by
  constructor
  · intro d c h
    simp only [categorizeItem]
    rw [h]
  · intro d h
    have hbag : strContains (strLower d) "bag" = false := by
      by_contra hcon
      rw [Bool.not_eq_false] at hcon
      have hmem : ("household",
          ["paper", "toilet", "tissue", "detergent", "soap", "cleaner",
           "cleaning", "laundry", "dish", "towel", "trash", "garbage", "bag",
           "battery", "light bulb", "candle", "filter", "storage",
           "container", "foil", "wrap", "ziploc", "vacuum", "broom", "mop",
           "sponge", "glove", "supply"]) ∈ categoryMappings := by
        unfold categoryMappings
        simp
      have hany := findCat_none h _ hmem
      rw [List.any_eq_false] at hany
      exact absurd hcon (by simpa using hany "bag" (by simp))
    simp only [categorizeItem]
    rw [h, hbag]
    simp

/-- C7, witness: the two deterministic examples of the claim that the code
does satisfy, a milk description categorized by the table and an unmatched
description falling to the default. -/
theorem c7_witness :
    categorizeItem "2% Milk 1L" = "Groceries" ∧
    categorizeItem "Unknown Widget XYZ" = "Groceries" := by
  constructor
  · exact (c7_amended.1 "2% Milk 1L" "groceries" (by decide)).trans (by decide)
  · exact c7_amended.2 "Unknown Widget XYZ" (by decide)

/-! ## Claim C3: empty results -/

theorem truthyStrOpt_eq_getD (c : Option String) :
    truthyStrOpt c = c.getD "" := by
  cases c with
  | none => rfl
  | some s =>
    by_cases h : s = ""
    · subst h; rfl
    · simp [truthyStrOpt, h]

theorem truthyOptStr_eq_if (c : Option String) :
    truthyOptStr c = if c = some "" then none else c := by
  cases c with
  | none => rfl
  | some s =>
    by_cases h : s = ""
    · subst h; rfl
    · simp [truthyOptStr, h]

/-- C3, counterexample.  When the single document has no fields, the code
has already copied the overall content and the document type into the
record before the fields check, so the returned receipt is not the
all-default EMPTY record: its extracted_text is the nonempty content. -/
theorem c3_counterexample :
    (processReceiptResult
      (.mk (some "SOME TEXT") [⟨some "receipt.retailMeal", []⟩])
      (some "img")).extracted_text = "SOME TEXT" ∧
    (processReceiptResult
      (.mk (some "SOME TEXT") [⟨some "receipt.retailMeal", []⟩])
      (some "img")).receipt_type = some "receipt.retailMeal" ∧
    processReceiptResult
      (.mk (some "SOME TEXT") [⟨some "receipt.retailMeal", []⟩])
      (some "img") ≠ getEmptyResult (some "img") := by
  exact ⟨by decide, by decide, by decide⟩

/-- C3, amended.  With no extracted document the all-default EMPTY record
is returned untouched; with one document carrying no fields, the EMPTY
record is returned except that image_id is overwritten with the raw caller
identifier, extracted_text carries the overall content (empty when absent)
and receipt_type carries the document type (absent when absent or empty). -/
theorem c3_amended :
    (∀ (content : Option String) (id : Option String),
      processReceiptResult (.mk content []) id = getEmptyResult id) ∧
    (∀ (content dt : Option String) (rest : List DocI) (id : Option String),
      processReceiptResult (.mk content (⟨dt, []⟩ :: rest)) id
        = { getEmptyResult id with
            image_id := id,
            extracted_text := content.getD "",
            receipt_type := if dt = some "" then none else dt }) := by
  constructor
  · intro content id
    rfl
  · intro content dt rest id
    show ({ getEmptyResult id with
            image_id := id,
            extracted_text := truthyStrOpt content,
            receipt_type := truthyOptStr dt } : ReceiptR) = _
    rw [truthyStrOpt_eq_getD, truthyOptStr_eq_if]

/-! ## Claim C4: exception containment in the assembler -/

/-- C4, counterexample.  The MerchantTaxId pre-processing runs outside the
per-field try-except, so a MerchantTaxId field that raises on access
discards the whole receipt: the result is the EMPTY record, although a
well-formed MerchantName field was present; the same input without the
malformed field keeps the merchant name. -/
theorem c4_counterexample :
    processReceiptResult c4input (some "img") = getEmptyResult (some "img") ∧
    (processReceiptResult c4inputB (some "img")).merchant.name = "Test Store" := by
  exact ⟨by decide, by decide⟩

/-- C4, amended.  No exception ever reaches the caller: a malformed result
object yields the EMPTY record.  Inside the main field loop, a field whose
processing raises before mutating the record is skipped and the remaining
fields are processed as if it were absent.  However, an exception while
pre-processing the MerchantTaxId field is caught only by the outer handler
and discards the whole receipt, yielding the EMPTY record. -/
theorem c4_amended :
    (∀ id : Option String,
      processReceiptResult .malformed id = getEmptyResult id) ∧
    (∀ (s : ProcState) (pre post : List (String × RawField)) (n : String),
      processFields s (pre ++ [(n, RawField.malformed)] ++ post)
        = processFields s (pre ++ post)) ∧
    (∀ (id content dt : Option String) (fields : List (String × RawField)),
      fields.lookup "MerchantTaxId" = some RawField.malformed →
      fields ≠ [] →
      processReceiptResult (.mk content [⟨dt, fields⟩]) id
        = getEmptyResult id) := by
  refine ⟨fun id => rfl, ?_, ?_⟩
  · intro s pre post n
    have hstep : ∀ s' : ProcState, stepCatch s' (n, RawField.malformed) = s' :=
      fun s' => rfl
    show (pre ++ [(n, RawField.malformed)] ++ post).foldl stepCatch s
      = (pre ++ post).foldl stepCatch s
    rw [List.foldl_append, List.foldl_append, List.foldl_append,
      List.foldl_cons, List.foldl_nil, hstep]
  · intro id content dt fields hlook hne
    match fields, hne with
    | f0 :: fs, _ =>
      show (match processReceiptResultE (.mk content [⟨dt, f0 :: fs⟩]) id with
        | .ok r => r
        | .error _ => getEmptyResult id) = getEmptyResult id
      simp only [processReceiptResultE, preProcessTaxId, hlook]

/-- C4, witness for the amended statement: a concrete field list whose
MerchantTaxId entry is malformed collapses the receipt to the EMPTY
record. -/
theorem c4_witness :
    processReceiptResult
      (.mk none [⟨none, [("TransactionDate", contentField "2024-01-01"),
                         ("MerchantTaxId", RawField.malformed)]⟩])
      (some "w4") = getEmptyResult (some "w4") :=
  c4_amended.2.2 (some "w4") none none _ rfl (by simp)

/-! ## Claim C1: tax-breakdown precedence -/

theorem sumAmounts_shift :
    ∀ (l : List RawField) (a : ℚ),
      l.foldl (fun a e => a + (entryAmount e).getD 0) a = a + sumAmounts l := by
  intro l
  induction l with
  | nil => intro a; simp [sumAmounts]
  | cons e t ih =>
    intro a
    show t.foldl _ (a + (entryAmount e).getD 0) = _
    rw [ih]
    show _ = a + (e :: t).foldl (fun a e => a + (entryAmount e).getD 0) 0
    show _ = a + t.foldl _ (0 + (entryAmount e).getD 0)
    rw [ih (0 + (entryAmount e).getD 0)]
    ring

theorem sumAmounts_cons (e : RawField) (t : List RawField) :
    sumAmounts (e :: t) = (entryAmount e).getD 0 + sumAmounts t := by
  show (e :: t).foldl (fun a e => a + (entryAmount e).getD 0) 0 = _
  show t.foldl _ (0 + (entryAmount e).getD 0) = _
  rw [sumAmounts_shift]
  ring

theorem getObjVal_ok {obj : List (String × RawField)} {k : String}
    (h : (match obj.lookup k with
          | some RawField.malformed => false
          | _ => true) = true) :
    getObjVal obj k
      = .ok (match obj.lookup k with
             | some f => some (extractOk f)
             | none => none) := by
  unfold getObjVal
  rcases hl : obj.lookup k with _ | f
  · rfl
  · rw [hl] at h
    cases f with
    | malformed => simp at h
    | mk k1 c1 a1 a2 a3 a4 a5 a6 a7 a8 a9 => rfl

theorem taxEntryE_ok (acc : TaxAcc) (obj : List (String × RawField))
    (h : taxEntryKeysOk obj = true) :
    ∃ a2 : TaxAcc, taxEntryE acc obj = .ok a2 ∧
      a2.cur = acc.cur + (entryAmount (objField obj)).getD 0 := by
  unfold taxEntryKeysOk at h
  simp only [List.all_cons, List.all_nil, Bool.and_eq_true, Bool.and_true] at h
  obtain ⟨hD, hR, hA⟩ := h
  unfold taxEntryE
  rw [getObjVal_ok hD, getObjVal_ok hR, getObjVal_ok hA]
  dsimp only
  have hamt : (match (match obj.lookup "Amount" with
        | some f => some (extractOk f)
        | none => (none : Option PyVal)) with
      | some v => cleanCurrency v
      | none => none) = entryAmount (objField obj) := by
    unfold entryAmount objField
    dsimp only
    rcases ha : obj.lookup "Amount" with _ | f
    · rfl
    · rw [ha] at hA
      cases f with
      | malformed => simp at hA
      | mk k1 c1 a1 a2 a3 a4 a5 a6 a7 a8 a9 => rfl
  rcases hv : (match (match obj.lookup "Amount" with
      | some f => some (extractOk f)
      | none => (none : Option PyVal)) with
    | some v => cleanCurrency v
    | none => none) with _ | a
  · rw [hv]
    refine ⟨acc, rfl, ?_⟩
    rw [← hamt, hv]
    simp
  · rw [hv]
    refine ⟨_, rfl, ?_⟩
    show acc.cur + a = _
    rw [← hamt, hv]
    simp

theorem taxFold_ok :
    ∀ (arr : List RawField) (acc : TaxAcc), taxArrOk arr = true →
      ∃ a2 : TaxAcc, taxFold acc arr = .ok a2 ∧
        a2.cur = acc.cur + sumAmounts arr := by
  intro arr
  induction arr with
  | nil =>
    intro acc _
    exact ⟨acc, rfl, by simp [sumAmounts]⟩
  | cons e rest ih =>
    intro acc h
    unfold taxArrOk at h
    rw [List.all_cons, Bool.and_eq_true] at h
    obtain ⟨he, hrest⟩ := h
    cases e with
    | malformed => simp at he
    | mk k1 c1 a1 a2 a3 a4 a5 a6 a7 va vo =>
      cases vo with
      | none =>
        obtain ⟨a9, heq, hcur⟩ := ih acc hrest
        refine ⟨a9, heq, ?_⟩
        rw [hcur, sumAmounts_cons]
        have : entryAmount (.mk k1 c1 a1 a2 a3 a4 a5 a6 a7 va none) = none := rfl
        rw [this]
        simp
      | some obj =>
        have hkeys : taxEntryKeysOk obj = true := by simpa using he
        obtain ⟨aMid, heqMid, hcurMid⟩ := taxEntryE_ok acc obj hkeys
        obtain ⟨aEnd, heqEnd, hcurEnd⟩ := ih aMid hrest
        refine ⟨aEnd, ?_, ?_⟩
        · show (match taxEntryE acc obj with
            | .ok acc2 => taxFold acc2 rest
            | .error a => .error a) = .ok aEnd
          rw [heqMid]
          exact heqEnd
        · rw [hcurEnd, hcurMid, sumAmounts_cons]
          have : entryAmount (.mk k1 c1 a1 a2 a3 a4 a5 a6 a7 va (some obj))
              = entryAmount (objField obj) := rfl
          rw [this]
          ring

theorem stepCatch_total_tax (s : ProcState) (n : String) (f : RawField)
    (h1 : n ≠ "TotalTax") (h2 : n ≠ "TaxDetails") :
    (stepCatch s (n, f)).total_tax = s.total_tax := by
  cases f with
  | malformed => rfl
  | mk k c vs vn vi vd vp vcr vca va vo =>
    show (match processFieldE s n (.mk k c vs vn vi vd vp vcr vca va vo) with
      | .ok t => t
      | .error t => t).total_tax = s.total_tax
    unfold processFieldE
    dsimp only
    by_cases hA : n = "MerchantName"
    · rw [if_pos hA]
    rw [if_neg hA]
    by_cases hB : n = "MerchantAddress"
    · rw [if_pos hB]
    rw [if_neg hB]
    by_cases hC : n = "MerchantPhoneNumber"
    · rw [if_pos hC]
    rw [if_neg hC]
    by_cases hD : n = "TransactionDate"
    · rw [if_pos hD]
    rw [if_neg hD]
    by_cases hE : n = "TransactionTime"
    · rw [if_pos hE]
    rw [if_neg hE]
    by_cases hF : n = "Total"
    · rw [if_pos hF]
      rcases hc : cleanCurrency
          (extractOk (RawField.mk k c vs vn vi vd vp vcr vca va vo)) with _ | t
      · rfl
      · rfl
    rw [if_neg hF]
    by_cases hG : n = "Subtotal"
    · rw [if_pos hG]
      rcases hc : cleanCurrency
          (extractOk (RawField.mk k c vs vn vi vd vp vcr vca va vo)) with _ | t
      · rfl
      · rfl
    rw [if_neg hG]
    rw [if_neg h1, if_neg h2]
    by_cases hJ : n = "PaymentDetails"
    · rw [if_pos hJ]
      rcases va with _ | arr
      · rfl
      · dsimp only
        rcases hp : payFold s.res.payment arr with p | p
        · rfl
        · rfl
    rw [if_neg hJ]
    by_cases hK : n = "AmountTendered"
    · rw [if_pos hK]
      by_cases hamt : s.res.payment.amount = ""
      · rw [if_pos hamt]
        rcases hc : cleanCurrency
            (extractOk (RawField.mk k c vs vn vi vd vp vcr vca va vo)) with _ | t
        · rfl
        · rfl
      · rw [if_neg hamt]
    rw [if_neg hK]
    by_cases hL : n = "ChangeDue"
    · rw [if_pos hL]
      rcases hc : cleanCurrency
          (extractOk (RawField.mk k c vs vn vi vd vp vcr vca va vo)) with _ | t
      · rfl
      · rfl
    rw [if_neg hL]
    by_cases hM : n = "PaymentType"
    · rw [if_pos hM]
      by_cases hpt : s.res.payment.ptype = ""
      · rw [if_pos hpt]
      · rw [if_neg hpt]
    rw [if_neg hM]
    by_cases hN : n = "Items"
    · rw [if_pos hN]
      rcases va with _ | arr
      · rfl
      · dsimp only
        rcases hi : itemsFold s.tax_rates s.has_hst [] arr with its | its
        · rfl
        · rfl
    rw [if_neg hN]

theorem mem_padLeftZeros_digit {c : Char} {e n : Nat}
    (h : c ∈ padLeftZeros e (natDigitsBE n)) : c ∈ digitChars := by
  unfold padLeftZeros at h
  rw [List.mem_append] at h
  rcases h with h | h
  · rw [List.eq_of_mem_replicate h]
    decide
  · exact mem_natDigitsBE h

theorem filter_strip_digits {l : List Char} (h : ∀ c ∈ l, c ∈ digitChars) :
    l.filter (fun c => !currencyStrip c) = l := by
  induction l with
  | nil => rfl
  | cons a t ih =>
    have ha : (!currencyStrip a) = true := by
      rw [digit_not_strip (h a (List.mem_cons_self a t))]
      rfl
    rw [List.filter_cons, if_pos ha,
      ih (fun c hc => h c (List.mem_cons_of_mem a hc))]

theorem filter_addCommasRevAux (l : List Char)
    (hd : ∀ c ∈ l, c ∈ digitChars) :
    (addCommasRevAux l).filter (fun c => !currencyStrip c) = l := by
  have main : ∀ n (l : List Char), l.length ≤ n →
      (∀ c ∈ l, c ∈ digitChars) →
      (addCommasRevAux l).filter (fun c => !currencyStrip c) = l := by
    intro n
    induction n with
    | zero =>
      intro l hl _
      rw [Nat.le_zero, List.length_eq_zero] at hl
      subst hl
      rfl
    | succ n ih =>
      intro l hl h
      rcases l with _ | ⟨a, _ | ⟨b, _ | ⟨c, _ | ⟨d, t⟩⟩⟩⟩
      · rfl
      · exact filter_strip_digits h
      · exact filter_strip_digits h
      · exact filter_strip_digits h
      · show (a :: b :: c :: ',' :: addCommasRevAux (d :: t)).filter
          (fun x => !currencyStrip x) = a :: b :: c :: d :: t
        have pa : (!currencyStrip a) = true := by
          rw [digit_not_strip (h a (by simp))]
          rfl
        have pb : (!currencyStrip b) = true := by
          rw [digit_not_strip (h b (by simp))]
          rfl
        have pc : (!currencyStrip c) = true := by
          rw [digit_not_strip (h c (by simp))]
          rfl
        rw [List.filter_cons, if_pos pa, List.filter_cons, if_pos pb,
          List.filter_cons, if_pos pc, List.filter_cons,
          if_neg (by decide)]
        rw [ih (d :: t) (by simp at hl ⊢; omega)
          (fun x hx => h x (by simp at hx ⊢; tauto))]
  exact main l.length l le_rfl hd

theorem filter_addCommas (l : List Char) (hd : ∀ c ∈ l, c ∈ digitChars) :
    (addCommas l).filter (fun c => !currencyStrip c) = l := by
  unfold addCommas
  rw [List.filter_reverse,
    filter_addCommasRevAux l.reverse (fun c hc => hd c (List.mem_reverse.1 hc)),
    List.reverse_reverse]

theorem formatCurrency_filter (m : Int) (e : Nat) :
    (formatCurrency m e).toList.filter (fun c => !currencyStrip c)
      = (if m < 0 then ['-'] else [])
        ++ natDigitsBE (m.natAbs / 10 ^ e)
        ++ (if e = 0 then []
            else '.' :: padLeftZeros e (natDigitsBE (m.natAbs % 10 ^ e))) := by
  unfold formatCurrency
  simp only [String.toList, String.data_append, List.filter_append]
  have h1 : [' ', '$'].filter (fun c => !currencyStrip c) = [] := by
    decide
  have h2 : ((if m < 0 then ("-" : String) else "")).data.filter
      (fun c => !currencyStrip c) = (if m < 0 then ['-'] else []) := by
    by_cases hm : m < 0
    · rw [if_pos hm, if_pos hm]
      decide
    · rw [if_neg hm, if_neg hm]
      rfl
  have h3 : (addCommas (natDigitsBE (m.natAbs / 10 ^ e))).filter
      (fun c => !currencyStrip c) = natDigitsBE (m.natAbs / 10 ^ e) :=
    filter_addCommas _ (fun c hc => mem_natDigitsBE hc)
  have h4 : ((if e = 0 then ""
      else String.mk
        ('.' :: padLeftZeros e (natDigitsBE (m.natAbs % 10 ^ e))))).data.filter
      (fun c => !currencyStrip c)
      = (if e = 0 then []
         else '.' :: padLeftZeros e (natDigitsBE (m.natAbs % 10 ^ e))) := by
    by_cases he : e = 0
    · rw [if_pos he, if_pos he]
      rfl
    · rw [if_neg he, if_neg he]
      show ('.' :: padLeftZeros e (natDigitsBE (m.natAbs % 10 ^ e))).filter
        (fun c => !currencyStrip c) = _
      rw [List.filter_cons, if_pos (by decide)]
      rw [filter_strip_digits (fun c hc => mem_padLeftZeros_digit hc)]
  have h5 : [' '].filter (fun c => !currencyStrip c) = [] := by
    decide
  rw [h1, h2, h3, h4, h5]
  simp

/-- C9.  The spec-side currency formatter (dollar sign, comma thousands
separators, surrounding whitespace, optional minus and fraction part)
round-trips through the currency normalizer: cleaning its output recovers
exactly the decimal m / 10 ^ e that was rendered. -/
theorem c9_roundtrip (m : Int) (e : Nat) :
    cleanCurrency (.vStr (formatCurrency m e)) = some (decVal m e) := by
  have hne : formatCurrency m e ≠ "" := by
    intro h
    rw [String.ext_iff] at h
    rw [show ("" : String).data = [] from rfl] at h
    unfold formatCurrency at h
    simp only [String.data_append] at h
    simp at h
  obtain ⟨c0, t0, hct⟩ :=
    List.exists_cons_of_ne_nil (natDigitsBE_ne_nil (m.natAbs / 10 ^ e))
  have hc0 : c0 ∈ digitChars :=
    mem_natDigitsBE (by rw [hct]; exact List.mem_cons_self c0 t0)
  simp only [cleanCurrency]
  rw [if_neg hne]
  simp only [formatCurrency_filter]
  by_cases hm : m < 0
  · by_cases he : e = 0
    · subst he
      rw [pow_zero, Nat.div_one] at hct
      simp only [if_pos hm, pow_zero, Nat.div_one, Nat.mod_one, if_true,
        List.nil_append, List.append_nil, List.cons_append,
        List.singleton_append, hct]
      have hnd0 : '-' ∉ (c0 :: t0) := by
        rw [← hct]
        intro hmem
        exact digit_ne_dash (mem_natDigitsBE hmem) rfl
      have hcnt : ('-' :: c0 :: t0).count '-' = 1 := by
        rw [List.count_cons_self, List.count_eq_zero.mpr hnd0]
      rw [if_neg (by simp), if_neg (by rw [hcnt]; omega), if_neg (by simp)]
      simp only [parseSignedDec]
      rw [if_true, ← hct, parsePosDec_natDigitsBE]
      simp only [Option.map_some']
      rw [(by omega : (-((m.natAbs : Int))) = m)]
    · simp only [if_pos hm, if_neg he, List.nil_append, List.singleton_append,
        hct, List.cons_append]
      have hnd : '-' ∉ c0 :: (t0 ++ '.' ::
          padLeftZeros e (natDigitsBE (m.natAbs % 10 ^ e))) := by
        rw [← List.cons_append, ← hct]
        intro hmem
        rcases List.mem_append.1 hmem with h1 | h1
        · exact digit_ne_dash (mem_natDigitsBE h1) rfl
        · rw [List.mem_cons] at h1
          rcases h1 with h1 | h1
          · exact absurd h1 (by decide)
          · exact digit_ne_dash (mem_padLeftZeros_digit h1) rfl
      have hcnt : ('-' :: c0 :: (t0 ++ '.' ::
          padLeftZeros e (natDigitsBE (m.natAbs % 10 ^ e)))).count '-' = 1 := by
        rw [List.count_cons_self, List.count_eq_zero.mpr hnd]
      rw [if_neg (by simp), if_neg (by rw [hcnt]; omega), if_neg (by simp)]
      simp only [parseSignedDec]
      rw [if_true, ← List.cons_append, ← hct]
      have hpp : parsePosDec (natDigitsBE (m.natAbs / 10 ^ e)
          ++ '.' :: padLeftZeros e (natDigitsBE (m.natAbs % 10 ^ e)))
          = some (m.natAbs, e) :=
        parsePosDec_decRenderN m.natAbs (Nat.pos_of_ne_zero he)
      rw [hpp]
      simp only [Option.map_some']
      rw [(by omega : (-((m.natAbs : Int))) = m)]
  · by_cases he : e = 0
    · subst he
      rw [pow_zero, Nat.div_one] at hct
      simp only [if_neg hm, pow_zero, Nat.div_one, Nat.mod_one, if_true,
        List.append_nil, List.nil_append, List.cons_append, hct]
      have hnd0 : '-' ∉ (c0 :: t0) := by
        rw [← hct]
        intro hmem
        exact digit_ne_dash (mem_natDigitsBE hmem) rfl
      have hcnt : (c0 :: t0).count '-' = 0 := List.count_eq_zero.mpr hnd0
      have hcf : (c0 :: t0).contains '-' = false := by simpa using hnd0
      rw [if_neg (by simp), if_neg (by rw [hcnt]; omega),
        if_neg (by rw [hcf]; simp)]
      simp only [parseSignedDec]
      rw [if_neg (digit_ne_dash hc0), if_neg (digit_ne_plus hc0),
        ← hct, parsePosDec_natDigitsBE]
      simp only [Option.map_some']
      rw [(by omega : ((m.natAbs : Int)) = m)]
    · simp only [if_neg hm, if_neg he, List.nil_append, hct,
        List.cons_append]
      have hnd : '-' ∉ c0 :: (t0 ++ '.' ::
          padLeftZeros e (natDigitsBE (m.natAbs % 10 ^ e))) := by
        rw [← List.cons_append, ← hct]
        intro hmem
        rcases List.mem_append.1 hmem with h1 | h1
        · exact digit_ne_dash (mem_natDigitsBE h1) rfl
        · rw [List.mem_cons] at h1
          rcases h1 with h1 | h1
          · exact absurd h1 (by decide)
          · exact digit_ne_dash (mem_padLeftZeros_digit h1) rfl
      have hcnt : (c0 :: (t0 ++ '.' ::
          padLeftZeros e (natDigitsBE (m.natAbs % 10 ^ e)))).count '-' = 0 :=
        List.count_eq_zero.mpr hnd
      have hcf : (c0 :: (t0 ++ '.' ::
          padLeftZeros e (natDigitsBE (m.natAbs % 10 ^ e)))).contains '-'
          = false := by simpa using hnd
      rw [if_neg (by simp), if_neg (by rw [hcnt]; omega),
        if_neg (by rw [hcf]; simp)]
      simp only [parseSignedDec]
      rw [if_neg (digit_ne_dash hc0), if_neg (digit_ne_plus hc0),
        ← List.cons_append, ← hct]
      have hpp : parsePosDec (natDigitsBE (m.natAbs / 10 ^ e)
          ++ '.' :: padLeftZeros e (natDigitsBE (m.natAbs % 10 ^ e)))
          = some (m.natAbs, e) :=
        parsePosDec_decRenderN m.natAbs (Nat.pos_of_ne_zero he)
      rw [hpp]
      simp only [Option.map_some']
      rw [(by omega : ((m.natAbs : Int)) = m)]

theorem processFields_total_tax :
    ∀ (l : List (String × RawField)) (s : ProcState), noTaxNames l = true →
      (processFields s l).total_tax = s.total_tax := by
  intro l
  induction l with
  | nil => intro s _; rfl
  | cons nf t ih =>
    intro s h
    unfold noTaxNames at h
    rw [List.all_cons, Bool.and_eq_true] at h
    obtain ⟨hnf, ht⟩ := h
    rw [Bool.and_eq_true] at hnf
    obtain ⟨hn1, hn2⟩ := hnf
    show (processFields (stepCatch s nf) t).total_tax = s.total_tax
    rw [ih _ ht]
    rcases nf with ⟨n, f⟩
    exact stepCatch_total_tax s n f (of_decide_eq_true hn1) (of_decide_eq_true hn2)

theorem preProcessTaxId_ok (s : ProcState) (fields : List (String × RawField))
    (h : preOk fields = true) :
    ∃ s1 : ProcState, preProcessTaxId s fields = .ok s1 := by
  unfold preOk at h
  unfold preProcessTaxId
  rcases hl : fields.lookup "MerchantTaxId" with _ | f
  · exact ⟨s, rfl⟩
  · rw [hl] at h
    cases f with
    | malformed => simp at h
    | mk k c vs vn vi vd vp vcr vca va vo =>
      dsimp only
      by_cases htr : pyTruthy (extractOk (.mk k c vs vn vi vd vp vcr vca va vo)) = true
      · rw [if_pos htr]
        rcases hs : hstSearch (pyStr (extractOk (.mk k c vs vn vi vd vp vcr vca va vo))).toList
            with _ | g
        · exact ⟨_, rfl⟩
        · exact ⟨_, rfl⟩
      · rw [if_neg htr]
        exact ⟨s, rfl⟩

theorem stepCatch_taxDetails (s : ProcState) (f : RawField)
    (arr : List RawField) (hva : f.arr = some arr) (hne : arr ≠ [])
    (hok : taxArrOk arr = true) :
    (stepCatch s ("TaxDetails", f)).total_tax = some (sumAmounts arr) := by
  cases f with
  | malformed => simp [RawField.arr] at hva
  | mk k c vs vn vi vd vp vcr vca va vo =>
    have hva2 : va = some arr := hva
    subst hva2
    show (match processFieldE s "TaxDetails" (.mk k c vs vn vi vd vp vcr vca (some arr) vo) with
      | .ok t => t
      | .error t => t).total_tax = some (sumAmounts arr)
    unfold processFieldE
    dsimp only
    rw [if_neg (by decide : ¬(("TaxDetails" : String) = "MerchantName")),
      if_neg (by decide : ¬(("TaxDetails" : String) = "MerchantAddress")),
      if_neg (by decide : ¬(("TaxDetails" : String) = "MerchantPhoneNumber")),
      if_neg (by decide : ¬(("TaxDetails" : String) = "TransactionDate")),
      if_neg (by decide : ¬(("TaxDetails" : String) = "TransactionTime")),
      if_neg (by decide : ¬(("TaxDetails" : String) = "Total")),
      if_neg (by decide : ¬(("TaxDetails" : String) = "Subtotal")),
      if_neg (by decide : ¬(("TaxDetails" : String) = "TotalTax")),
      if_pos rfl]
    rcases arr with _ | ⟨a0, t0⟩
    · exact absurd rfl hne
    · dsimp only
      obtain ⟨a2, heq, hcur⟩ :=
        taxFold_ok (a0 :: t0)
          { cur := 0, rates := [], amounts := [], types := [],
            hst := s.has_hst } hok
      rw [heq]
      show some a2.cur = some (sumAmounts (a0 :: t0))
      rw [hcur]
      norm_num

/-- C1, counterexample.  With the TaxDetails field appearing before the
TotalTax field in the field mapping, the later top-level value overwrites
the recomputed breakdown sum: the breakdown sums to 13 but the recorded tax
is the top-level 5. -/
theorem c1_counterexample :
    (processReceiptResult c1input (some "img")).transaction.tax = "5.0" ∧
    (processReceiptResult c1input (some "img")).transaction.tax_details.total_tax
      = "5.0" ∧
    sumAmounts c1arr = 13 ∧
    pyStrFloat (sumAmounts c1arr) ≠ "5.0" := by
  exact ⟨by decide, by decide, by decide, by decide⟩

/-- C1, amended.  When the field mapping contains a nonempty structured
TaxDetails array whose processing raises no exception, and no later field
is named TotalTax or TaxDetails (in particular the top-level TotalTax field
may appear anywhere before it with any value), the recorded tax of the
assembled receipt (transaction.tax and the tax_details total) is the sum of
the non-absent breakdown amounts.  When a TotalTax field follows the
breakdown in mapping order, its value overwrites the breakdown sum
instead. -/
theorem c1_amended (content dt id : Option String)
    (pre post : List (String × RawField)) (f : RawField)
    (arr : List RawField) (hva : f.arr = some arr) (hne : arr ≠ [])
    (hok : taxArrOk arr = true)
    (hpre : preOk (pre ++ [("TaxDetails", f)] ++ post) = true)
    (hpost : noTaxNames post = true) :
    (processReceiptResult
        (.mk content [⟨dt, pre ++ [("TaxDetails", f)] ++ post⟩])
        id).transaction.tax = pyStrFloat (sumAmounts arr) ∧
    (processReceiptResult
        (.mk content [⟨dt, pre ++ [("TaxDetails", f)] ++ post⟩])
        id).transaction.tax_details.total_tax
      = pyStrFloat (sumAmounts arr) := by
  have key : ∀ s1 : ProcState,
      (processFields s1 (pre ++ [("TaxDetails", f)] ++ post)).total_tax
        = some (sumAmounts arr) := by
    intro s1
    have hsplitfold :
        processFields s1 (pre ++ [("TaxDetails", f)] ++ post)
          = processFields
              (stepCatch (processFields s1 pre) ("TaxDetails", f)) post := by
      show (pre ++ [("TaxDetails", f)] ++ post).foldl stepCatch s1 = _
      rw [List.foldl_append, List.foldl_append, List.foldl_cons, List.foldl_nil]
      rfl
    rw [hsplitfold, processFields_total_tax post _ hpost,
      stepCatch_taxDetails _ f arr hva hne hok]
  rcases hsf : pre ++ [("TaxDetails", f)] ++ post with _ | ⟨f0, fs⟩
  · exfalso
    simp at hsf
  · rw [hsf] at hpre
    show (match processReceiptResultE (.mk content [⟨dt, f0 :: fs⟩]) id with
      | .ok r => r
      | .error _ => getEmptyResult id).transaction.tax = _ ∧
      (match processReceiptResultE (.mk content [⟨dt, f0 :: fs⟩]) id with
      | .ok r => r
      | .error _ => getEmptyResult id).transaction.tax_details.total_tax = _
    unfold processReceiptResultE
    dsimp only
    obtain ⟨s1, hpp⟩ := preProcessTaxId_ok _ (f0 :: fs) hpre
    rw [hpp]
    dsimp only
    have htt := key s1
    rw [hsf] at htt
    constructor
    · show (match (processFields s1 (f0 :: fs)).total_tax with
        | some t => pyStrFloat t
        | none => "") = _
      rw [htt]
    · show (match (processFields s1 (f0 :: fs)).total_tax with
        | some t => pyStrFloat t
        | none => "") = _
      rw [htt]

/-- C1, witness for the amended statement: TotalTax five dollars first,
then a thirteen-dollar breakdown; the recorded tax is the breakdown sum
13.0. -/
theorem c1_witness :
    (processReceiptResult
      (.mk none [⟨none, [("TotalTax", contentField "5.00"),
                         ("TaxDetails", arrField c1arr)]⟩])
      (some "w1")).transaction.tax = "13.0" := by
  have h := (c1_amended none none (some "w1")
    [("TotalTax", contentField "5.00")] [] (arrField c1arr) c1arr
    rfl (by simp [c1arr]) (by decide) (by decide) (by decide)).1
  exact h.trans (by decide)

end ReceiptAnalyzer
